import Mathlib

/-!
# Verification of the raycaster-js renderer core

Shallow embedding of the raycaster-js sources:

* `src/utils/index.ts` — `rayTilemapIntersection` (2D grid DDA),
  `rayTilemapCeilingFloorIntersection`, `screenPointToRay`;
* `src/Raycaster.ts` — `clear`, `renderWall`, `renderFloorAndCeiling`,
  `renderBillboard`, the private `draw_wall_vline` / `draw_billboard_vline`,
  and the module-private `selectTextureByCamera`;
* `src/Camera.ts` — the `Camera` class;
* `src/Tilemap.ts`, `src/Texture.ts`, `src/FrameBuffer.ts`, `src/Light.ts` —
  plain data interfaces.

Numeric values are embedded in a linear ordered field `K` (instantiated at `ℚ`
for concrete evaluation and at `ℝ` where the source uses `Math.atan2`,
`Math.sqrt`, `Math.cos`, `Math.sin`).  The only non-finite JavaScript float
values reachable on the modelled code paths are `Infinity` (from `1/0` inside
`Math.abs(1.0 / rayDir)`), which we model with an explicit `Flt` type for the
DDA side distances, and `Number.MAX_VALUE`, a finite value.  Loops whose
iteration count is not structurally bounded (the DDA `while (true)` loop) take
an explicit fuel; returning `none` models non-termination of the source loop.
-/

namespace Raycast

/-- A JavaScript number as it appears in the DDA side-distance computations and
the z-buffer: either a finite value or `Infinity`.  `NaN` and `-Infinity` are
not produced on the modelled code paths (see the comments at each operation). -/
inductive Flt (K : Type) where
  | fin (v : K)
  | inf
  deriving DecidableEq

/-- IEEE `<` on the values we produce: `Infinity < Infinity` is false,
`finite < Infinity` is true, `Infinity < finite` is false. -/
def Flt.lt {K : Type} [LinearOrder K] : Flt K → Flt K → Bool
  | .fin a, .fin b => decide (a < b)
  | .fin _, .inf => true
  | .inf, _ => false

/-- IEEE `+` on the values we produce (`Infinity + finite = Infinity`;
`-Infinity` never occurs, so no `NaN` case arises). -/
def Flt.add {K : Type} [Add K] : Flt K → Flt K → Flt K
  | .fin a, .fin b => .fin (a + b)
  | _, _ => .inf

/-- Multiplication of a finite scalar by a possibly-infinite value, used for
`sideDist = frac * deltaDist`.  On the modelled code paths the scalar is
strictly positive whenever the second operand is `inf` (the fractional start
offset `⌊s⌋ + 1 - s` is in `(0, 1]` when the ray direction component is `0`),
so the IEEE `0 * Infinity = NaN` case never arises. -/
def Flt.smul {K : Type} [Mul K] (a : K) : Flt K → Flt K
  | .fin b => .fin (a * b)
  | .inf => .inf

/-- 2-component vector record (`Vector2Like` / `Vec2` of the source). -/
structure Vec2 (K : Type) where
  x : K
  y : K
  deriving DecidableEq

/-- 3-component vector record (`Vector3Like` / `Vec3` of the source). -/
structure Vec3 (K : Type) where
  x : K
  y : K
  z : K
  deriving DecidableEq

/-- `Tilemap` interface (src/Tilemap.ts): row-major grid of cell codes.
Cell values are non-negative integers (`0` = empty, positive = wall). -/
structure Tilemap where
  width : ℕ
  height : ℕ
  map : List ℕ
  deriving DecidableEq

/-- The flat array read `map[my * mapWidth + mx]` exactly as the source indexes
it: a negative or too-large flat index yields JS `undefined`, modelled as
`none`.  (A flat index that is in range but corresponds to `mx` outside
`[0, width)` reads a wrapped-around cell of a neighbouring row, exactly as in
JavaScript.) -/
def Tilemap.cellAt (tm : Tilemap) (mx my : ℤ) : Option ℕ :=
  let i := my * tm.width + mx
  if 0 ≤ i then tm.map[i.toNat]? else none

/-- `Math.abs`, written with a comparison so that it evaluates by kernel
reduction (equal to `|x|` on every linear ordered field). -/
def jsAbs {K : Type} [LinearOrderedField K] (x : K) : K :=
  if x < 0 then -x else x

/-- `Math.abs(1.0 / d)` under JS float semantics: `1/0 = Infinity`. -/
def jsAbsRecip {K : Type} [LinearOrderedField K] (d : K) : Flt K :=
  if d = 0 then .inf else .fin (jsAbs (1 / d))

/-- The `while (true)` loop of `rayTilemapIntersection` (src/utils/index.ts).
State: side distances, current cell `(mapPosX, mapPosY)`.  Each iteration
advances the axis with the smaller side distance and stops when
`map[mapPosY * mapWidth + mapPosX] !== 0` (note: a JS `undefined` read also
stops the loop, since `undefined !== 0`).  Returns the final cell and `side`;
`none` models running out of fuel, i.e. an infinite loop in the source. -/
def ddaLoop {K : Type} [LinearOrderedField K] (tm : Tilemap)
    (deltaDistX deltaDistY : Flt K) (stepX stepY : ℤ) :
    ℕ → Flt K → Flt K → ℤ → ℤ → Option (ℤ × ℤ × ℕ)
  | 0, _, _, _, _ => none
  | fuel + 1, sideDistX, sideDistY, mapPosX, mapPosY =>
    if Flt.lt sideDistX sideDistY then
      let sideDistX' := Flt.add sideDistX deltaDistX
      let mapPosX' := mapPosX + stepX
      if tm.cellAt mapPosX' mapPosY ≠ some 0 then some (mapPosX', mapPosY, 0)
      else ddaLoop tm deltaDistX deltaDistY stepX stepY fuel sideDistX' sideDistY mapPosX' mapPosY
    else
      let sideDistY' := Flt.add sideDistY deltaDistY
      let mapPosY' := mapPosY + stepY
      if tm.cellAt mapPosX mapPosY' ≠ some 0 then some (mapPosX, mapPosY', 1)
      else ddaLoop tm deltaDistX deltaDistY stepX stepY fuel sideDistX sideDistY' mapPosX mapPosY'

/-- `Ray2D` of the source: start position and direction in the XY plane. -/
structure Ray2D (K : Type) where
  startPosition : Vec2 K
  direction : Vec2 K

/-- `RayTilemapIntersectionResult` of the source.  `mapPosition` and `normal`
are integer-valued JS numbers, modelled with `ℤ` components. -/
structure RayTilemapIntersectionResult (K : Type) where
  mapPosition : Vec2 ℤ
  side : ℕ
  hitPosition : Vec2 K
  normal : Vec2 ℤ
  perpendicularDistance : K
  deriving DecidableEq

/-- `rayTilemapIntersection` (src/utils/index.ts): classic 2D DDA.
`fuel` bounds the number of loop iterations; `none` models non-termination. -/
def rayTilemapIntersection {K : Type} [LinearOrderedField K] [FloorRing K]
    (fuel : ℕ) (ray : Ray2D K) (tm : Tilemap) :
    Option (RayTilemapIntersectionResult K) :=
  let sx := ray.startPosition.x
  let sy := ray.startPosition.y
  let mapPosX : ℤ := ⌊sx⌋
  let mapPosY : ℤ := ⌊sy⌋
  let rayDirX := ray.direction.x
  let rayDirY := ray.direction.y
  let stepX : ℤ := if 0 ≤ rayDirX then 1 else -1
  let stepY : ℤ := if 0 ≤ rayDirY then 1 else -1
  let deltaDistX := jsAbsRecip rayDirX
  let deltaDistY := jsAbsRecip rayDirY
  let sideDistX :=
    Flt.smul (if 0 ≤ rayDirX then (mapPosX : K) + 1 - sx else sx - mapPosX) deltaDistX
  let sideDistY :=
    Flt.smul (if 0 ≤ rayDirY then (mapPosY : K) + 1 - sy else sy - mapPosY) deltaDistY
  match ddaLoop tm deltaDistX deltaDistY stepX stepY fuel sideDistX sideDistY mapPosX mapPosY with
  | none => none
  | some (mx, my, side) =>
    let perpendicularDistance : K :=
      if side = 0 then ((mx : K) - sx + (1 - (stepX : K)) / 2) / rayDirX
      else ((my : K) - sy + (1 - (stepY : K)) / 2) / rayDirY
    some {
      mapPosition := ⟨mx, my⟩
      hitPosition := ⟨sx + perpendicularDistance * rayDirX,
                      sy + perpendicularDistance * rayDirY⟩
      side := side
      normal := ⟨if side = 0 then -stepX else 0, if side = 1 then -stepY else 0⟩
      perpendicularDistance := perpendicularDistance
    }

/-- The DDA loop only ever reports `side = 0` (stepped in x) or `side = 1`
(stepped in y). -/
lemma ddaLoop_side_mem {K : Type} [LinearOrderedField K] (tm : Tilemap)
    (ddx ddy : Flt K) (stepX stepY : ℤ) :
    ∀ (fuel : ℕ) (sdx sdy : Flt K) (mx my : ℤ) (r : ℤ × ℤ × ℕ),
      ddaLoop tm ddx ddy stepX stepY fuel sdx sdy mx my = some r →
      r.2.2 = 0 ∨ r.2.2 = 1 := by
  intro fuel
  induction fuel with
  | zero => intro _ _ _ _ _ h; simp [ddaLoop] at h
  | succ n ih =>
    intro sdx sdy mx my r h
    simp only [ddaLoop] at h
    split at h
    · split at h
      · cases h; left; rfl
      · exact ih _ _ _ _ _ h
    · split at h
      · cases h; right; rfl
      · exact ih _ _ _ _ _ h

/-- C4: whenever the DDA loop reaches a positive cell, `rayTilemapIntersection`
returns `perpendicularDistance t = (mx − sx + (1 − stepX)/2) / dx` when
`side = 0` (symmetrically over y when `side = 1`), `hitPosition =
(sx + t·dx, sy + t·dy)`, and `normal = (−stepX, 0)` if `side = 0` else
`(0, −stepY)`, where `(mx, my)` is the final cell and `stepX`, `stepY` are the
per-axis signs of the direction. -/
theorem rayTilemapIntersection_result_formulas {K : Type}
    [LinearOrderedField K] [FloorRing K]
    (fuel : ℕ) (ray : Ray2D K) (tm : Tilemap) (res : RayTilemapIntersectionResult K)
    (h : rayTilemapIntersection fuel ray tm = some res) :
    (res.side = 0 ∨ res.side = 1) ∧
    res.perpendicularDistance =
      (if res.side = 0 then
        ((res.mapPosition.x : K) - ray.startPosition.x +
            (1 - ((if 0 ≤ ray.direction.x then (1 : ℤ) else -1) : K)) / 2) /
          ray.direction.x
       else
        ((res.mapPosition.y : K) - ray.startPosition.y +
            (1 - ((if 0 ≤ ray.direction.y then (1 : ℤ) else -1) : K)) / 2) /
          ray.direction.y) ∧
    res.hitPosition =
      ⟨ray.startPosition.x + res.perpendicularDistance * ray.direction.x,
       ray.startPosition.y + res.perpendicularDistance * ray.direction.y⟩ ∧
    res.normal =
      (if res.side = 0 then ⟨-(if 0 ≤ ray.direction.x then 1 else -1), 0⟩
       else ⟨0, -(if 0 ≤ ray.direction.y then 1 else -1)⟩) := by
  simp only [rayTilemapIntersection] at h
  split at h
  · exact absurd h (by simp)
  · next mx my side hdda =>
      have hside : side = 0 ∨ side = 1 := ddaLoop_side_mem _ _ _ _ _ _ _ _ _ _ _ hdda
      cases h
      rcases hside with h0 | h1
      · subst h0; simp
      · subst h1; simp

/-- An in-bounds cell of a tilemap whose `map` has the advertised length always
reads an actual value (never JS `undefined`). -/
lemma cellAt_isSome (tm : Tilemap) (hlen : tm.map.length = tm.width * tm.height)
    (mx my : ℤ) (hx0 : 0 ≤ mx) (hx1 : mx < (tm.width : ℤ))
    (hy0 : 0 ≤ my) (hy1 : my < (tm.height : ℤ)) :
    ∃ v, tm.cellAt mx my = some v := by
  have hi0 : 0 ≤ my * (tm.width : ℤ) + mx :=
    add_nonneg (mul_nonneg hy0 (by positivity)) hx0
  have hiWH : my * (tm.width : ℤ) + mx < (tm.width : ℤ) * (tm.height : ℤ) := by
    nlinarith
  have hlt : (my * (tm.width : ℤ) + mx).toNat < tm.map.length := by
    rw [hlen]
    have hc : ((my * (tm.width : ℤ) + mx).toNat : ℤ) < ((tm.width * tm.height : ℕ) : ℤ) := by
      rw [Int.toNat_of_nonneg hi0]
      push_cast
      linarith
    exact_mod_cast hc
  refine ⟨tm.map.get ⟨(my * (tm.width : ℤ) + mx).toNat, hlt⟩, ?_⟩
  simp only [Tilemap.cellAt, if_pos hi0]
  rw [List.getElem?_eq_getElem hlt]
  simp

/-- Interior-start DDA termination: starting from a cell strictly inside the
border ring of a tilemap whose whole outer border is non-zero, the loop stops
(with enough fuel) at an in-bounds cell holding a positive value.  The side
distances are arbitrary: the proof only uses that every iteration moves one
cell in a fixed per-axis direction. -/
lemma ddaLoop_reaches_wall {K : Type} [LinearOrderedField K] (tm : Tilemap)
    (hlen : tm.map.length = tm.width * tm.height)
    (hborder : ∀ mx my : ℤ, 0 ≤ mx → mx < (tm.width : ℤ) →
      0 ≤ my → my < (tm.height : ℤ) →
      (mx = 0 ∨ mx = (tm.width : ℤ) - 1 ∨ my = 0 ∨ my = (tm.height : ℤ) - 1) →
      tm.cellAt mx my ≠ some 0)
    (ddx ddy : Flt K) (stepX stepY : ℤ)
    (hsx : stepX = 1 ∨ stepX = -1) (hsy : stepY = 1 ∨ stepY = -1) :
    ∀ (n : ℕ) (sdx sdy : Flt K) (mx my : ℤ),
      1 ≤ mx → mx ≤ (tm.width : ℤ) - 2 → 1 ≤ my → my ≤ (tm.height : ℤ) - 2 →
      ((if stepX = 1 then (tm.width : ℤ) - 1 - mx else mx).toNat +
        (if stepY = 1 then (tm.height : ℤ) - 1 - my else my).toNat) ≤ n →
      ∃ (fuel : ℕ) (res : ℤ × ℤ × ℕ),
        ddaLoop tm ddx ddy stepX stepY fuel sdx sdy mx my = some res ∧
        0 ≤ res.1 ∧ res.1 < (tm.width : ℤ) ∧
        0 ≤ res.2.1 ∧ res.2.1 < (tm.height : ℤ) ∧
        ∃ v, tm.cellAt res.1 res.2.1 = some v ∧ 0 < v := by
  intro n
  induction n with
  | zero =>
    intro sdx sdy mx my h1 h2 h3 h4 hm
    exfalso
    rcases hsx with rfl | rfl <;> rcases hsy with rfl | rfl <;> simp at hm <;> omega
  | succ n ih =>
    intro sdx sdy mx my h1 h2 h3 h4 hm
    by_cases hb : Flt.lt sdx sdy = true
    · -- this iteration steps in x
      have hx'0 : 0 ≤ mx + stepX := by rcases hsx with rfl | rfl <;> omega
      have hx'1 : mx + stepX < (tm.width : ℤ) := by rcases hsx with rfl | rfl <;> omega
      by_cases hc : tm.cellAt (mx + stepX) my = some 0
      · -- empty cell: keep looping; the new cell cannot lie on the border ring
        have hx'int : 1 ≤ mx + stepX ∧ mx + stepX ≤ (tm.width : ℤ) - 2 := by
          by_contra hcon
          exact hborder (mx + stepX) my hx'0 hx'1 (by omega) (by omega) (by omega) hc
        obtain ⟨fuel, res, hres, hrest⟩ :=
          ih (Flt.add sdx ddx) sdy (mx + stepX) my hx'int.1 hx'int.2 h3 h4 (by
            rcases hsx with rfl | rfl <;> rcases hsy with rfl | rfl <;>
              simp at hm ⊢ <;> omega)
        refine ⟨fuel + 1, res, ?_, hrest⟩
        simp only [ddaLoop, if_pos hb, hc]
        simpa using hres
      · -- non-zero (or out-of-range) cell: the loop stops here
        refine ⟨1, (mx + stepX, my, 0), ?_, hx'0, hx'1, ?_, ?_, ?_⟩
        · simp [ddaLoop, hb, hc]
        · show (0 : ℤ) ≤ my
          omega
        · show my < (tm.height : ℤ)
          omega
        · show ∃ v, tm.cellAt (mx + stepX) my = some v ∧ 0 < v
          obtain ⟨v, hv⟩ := cellAt_isSome tm hlen (mx + stepX) my hx'0 hx'1
            (by omega) (by omega)
          exact ⟨v, hv, by rcases Nat.eq_zero_or_pos v with rfl | hvp
                           · exact absurd hv hc
                           · exact hvp⟩
    · -- this iteration steps in y
      have hy'0 : 0 ≤ my + stepY := by rcases hsy with rfl | rfl <;> omega
      have hy'1 : my + stepY < (tm.height : ℤ) := by rcases hsy with rfl | rfl <;> omega
      by_cases hc : tm.cellAt mx (my + stepY) = some 0
      · have hy'int : 1 ≤ my + stepY ∧ my + stepY ≤ (tm.height : ℤ) - 2 := by
          by_contra hcon
          exact hborder mx (my + stepY) (by omega) (by omega) hy'0 hy'1 (by omega) hc
        obtain ⟨fuel, res, hres, hrest⟩ :=
          ih sdx (Flt.add sdy ddy) mx (my + stepY) h1 h2 hy'int.1 hy'int.2 (by
            rcases hsx with rfl | rfl <;> rcases hsy with rfl | rfl <;>
              simp at hm ⊢ <;> omega)
        refine ⟨fuel + 1, res, ?_, hrest⟩
        simp only [ddaLoop, if_neg hb, hc]
        simpa using hres
      · refine ⟨1, (mx, my + stepY, 1), ?_, ?_, ?_, hy'0, hy'1, ?_⟩
        · simp [ddaLoop, hb, hc]
        · show (0 : ℤ) ≤ mx
          omega
        · show mx < (tm.width : ℤ)
          omega
        · show ∃ v, tm.cellAt mx (my + stepY) = some v ∧ 0 < v
          obtain ⟨v, hv⟩ := cellAt_isSome tm hlen mx (my + stepY) (by omega) (by omega)
            hy'0 hy'1
          exact ⟨v, hv, by rcases Nat.eq_zero_or_pos v with rfl | hvp
                           · exact absurd hv hc
                           · exact hvp⟩

/-- C5: for every ray with non-zero direction starting inside the region
enclosed by a tilemap's solid outer border, `rayTilemapIntersection` terminates
(for some fuel, i.e. the source loop stops), and the cell it stops at
(`mapPosition`) is an in-bounds cell with a positive map value. -/
theorem rayTilemapIntersection_terminates_on_wall {K : Type}
    [LinearOrderedField K] [FloorRing K] (ray : Ray2D K) (tm : Tilemap)
    (hdir : ¬(ray.direction.x = 0 ∧ ray.direction.y = 0))
    (hlen : tm.map.length = tm.width * tm.height)
    (hborder : ∀ mx my : ℤ, 0 ≤ mx → mx < (tm.width : ℤ) →
      0 ≤ my → my < (tm.height : ℤ) →
      (mx = 0 ∨ mx = (tm.width : ℤ) - 1 ∨ my = 0 ∨ my = (tm.height : ℤ) - 1) →
      ∃ v, tm.cellAt mx my = some v ∧ 0 < v)
    (hx1 : 1 ≤ ⌊ray.startPosition.x⌋) (hx2 : ⌊ray.startPosition.x⌋ ≤ (tm.width : ℤ) - 2)
    (hy1 : 1 ≤ ⌊ray.startPosition.y⌋) (hy2 : ⌊ray.startPosition.y⌋ ≤ (tm.height : ℤ) - 2) :
    ∃ (fuel : ℕ) (res : RayTilemapIntersectionResult K),
      rayTilemapIntersection fuel ray tm = some res ∧
      0 ≤ res.mapPosition.x ∧ res.mapPosition.x < (tm.width : ℤ) ∧
      0 ≤ res.mapPosition.y ∧ res.mapPosition.y < (tm.height : ℤ) ∧
      ∃ v, tm.cellAt res.mapPosition.x res.mapPosition.y = some v ∧ 0 < v := by
  have hborder' : ∀ mx my : ℤ, 0 ≤ mx → mx < (tm.width : ℤ) →
      0 ≤ my → my < (tm.height : ℤ) →
      (mx = 0 ∨ mx = (tm.width : ℤ) - 1 ∨ my = 0 ∨ my = (tm.height : ℤ) - 1) →
      tm.cellAt mx my ≠ some 0 := by
    intro mx my h0 h1 h2 h3 hring
    obtain ⟨v, hv, hvp⟩ := hborder mx my h0 h1 h2 h3 hring
    rw [hv]
    simp
    omega
  have hsx : (if 0 ≤ ray.direction.x then (1 : ℤ) else -1) = 1 ∨
      (if 0 ≤ ray.direction.x then (1 : ℤ) else -1) = -1 := by
    by_cases h : 0 ≤ ray.direction.x <;> simp [h]
  have hsy : (if 0 ≤ ray.direction.y then (1 : ℤ) else -1) = 1 ∨
      (if 0 ≤ ray.direction.y then (1 : ℤ) else -1) = -1 := by
    by_cases h : 0 ≤ ray.direction.y <;> simp [h]
  obtain ⟨fuel, ⟨mx, my, side⟩, hloop, hb1, hb2, hb3, hb4, v, hv, hvp⟩ :=
    ddaLoop_reaches_wall tm hlen hborder'
      (jsAbsRecip ray.direction.x) (jsAbsRecip ray.direction.y)
      (if 0 ≤ ray.direction.x then 1 else -1) (if 0 ≤ ray.direction.y then 1 else -1)
      hsx hsy
      ((if (if 0 ≤ ray.direction.x then (1 : ℤ) else -1) = 1 then
          (tm.width : ℤ) - 1 - ⌊ray.startPosition.x⌋ else ⌊ray.startPosition.x⌋).toNat +
        (if (if 0 ≤ ray.direction.y then (1 : ℤ) else -1) = 1 then
          (tm.height : ℤ) - 1 - ⌊ray.startPosition.y⌋ else ⌊ray.startPosition.y⌋).toNat)
      (Flt.smul
        (if 0 ≤ ray.direction.x then (⌊ray.startPosition.x⌋ : K) + 1 - ray.startPosition.x
         else ray.startPosition.x - ⌊ray.startPosition.x⌋)
        (jsAbsRecip ray.direction.x))
      (Flt.smul
        (if 0 ≤ ray.direction.y then (⌊ray.startPosition.y⌋ : K) + 1 - ray.startPosition.y
         else ray.startPosition.y - ⌊ray.startPosition.y⌋)
        (jsAbsRecip ray.direction.y))
      ⌊ray.startPosition.x⌋ ⌊ray.startPosition.y⌋ hx1 hx2 hy1 hy2 le_rfl
  set P : K := (if side = 0 then
      ((mx : K) - ray.startPosition.x +
          (1 - ((if 0 ≤ ray.direction.x then (1 : ℤ) else -1) : K)) / 2) / ray.direction.x
    else
      ((my : K) - ray.startPosition.y +
          (1 - ((if 0 ≤ ray.direction.y then (1 : ℤ) else -1) : K)) / 2) / ray.direction.y)
    with hP
  refine ⟨fuel,
    { mapPosition := ⟨mx, my⟩
      side := side
      hitPosition := ⟨ray.startPosition.x + P * ray.direction.x,
                      ray.startPosition.y + P * ray.direction.y⟩
      normal := ⟨if side = 0 then -(if 0 ≤ ray.direction.x then 1 else -1) else 0,
                 if side = 1 then -(if 0 ≤ ray.direction.y then 1 else -1) else 0⟩
      perpendicularDistance := P }, ?_, hb1, hb2, hb3, hb4, v, hv, hvp⟩
  simp only [rayTilemapIntersection, hloop, hP]
  simp [apply_ite (fun n : ℤ => (n : K))]

/-- 3×3 tilemap: a solid border ring around one empty centre cell. -/
def ring3 : Tilemap := ⟨3, 3, [1, 1, 1, 1, 0, 1, 1, 1, 1]⟩

/-- A concrete probe ray starting at the centre of `ring3`, pointing in +x. -/
def probeRay : Ray2D ℚ := ⟨⟨3 / 2, 3 / 2⟩, ⟨1, 0⟩⟩

/-- Witness for C5 at a concrete input. -/
theorem rayTilemapIntersection_terminates_on_wall_witness :
    ∃ (fuel : ℕ) (res : RayTilemapIntersectionResult ℚ),
      rayTilemapIntersection fuel probeRay ring3 = some res ∧
      0 ≤ res.mapPosition.x ∧ res.mapPosition.x < (ring3.width : ℤ) ∧
      0 ≤ res.mapPosition.y ∧ res.mapPosition.y < (ring3.height : ℤ) ∧
      ∃ v, ring3.cellAt res.mapPosition.x res.mapPosition.y = some v ∧ 0 < v := by
  apply rayTilemapIntersection_terminates_on_wall
  · simp [probeRay]
  · decide
  · intro mx my h0 h1 h2 h3 hring
    simp only [ring3] at h1 h3 hring ⊢
    norm_num at h1 h3 hring
    interval_cases mx <;> interval_cases my <;>
      first
      | exact ⟨1, by decide, one_pos⟩
      | omega
  · norm_num [probeRay]
  · norm_num [probeRay, ring3]
  · norm_num [probeRay]
  · norm_num [probeRay, ring3]

/-- The intersection record the DDA produces for `probeRay` against `ring3`. -/
def probeRes : RayTilemapIntersectionResult ℚ := ⟨⟨2, 1⟩, 0, ⟨2, 3 / 2⟩, ⟨-1, 0⟩, 1 / 2⟩

/-- Witness for C4 at a concrete input. -/
theorem rayTilemapIntersection_result_formulas_witness :
    rayTilemapIntersection 10 probeRay ring3 = some probeRes ∧
    ((probeRes.side = 0 ∨ probeRes.side = 1) ∧
      probeRes.perpendicularDistance =
        (if probeRes.side = 0 then
          ((probeRes.mapPosition.x : ℚ) - probeRay.startPosition.x +
              (1 - ((if 0 ≤ probeRay.direction.x then (1 : ℤ) else -1) : ℚ)) / 2) /
            probeRay.direction.x
         else
          ((probeRes.mapPosition.y : ℚ) - probeRay.startPosition.y +
              (1 - ((if 0 ≤ probeRay.direction.y then (1 : ℤ) else -1) : ℚ)) / 2) /
            probeRay.direction.y) ∧
      probeRes.hitPosition =
        ⟨probeRay.startPosition.x + probeRes.perpendicularDistance * probeRay.direction.x,
         probeRay.startPosition.y + probeRes.perpendicularDistance * probeRay.direction.y⟩ ∧
      probeRes.normal =
        (if probeRes.side = 0 then ⟨-(if 0 ≤ probeRay.direction.x then 1 else -1), 0⟩
         else ⟨0, -(if 0 ≤ probeRay.direction.y then 1 else -1)⟩)) := by
  have h : rayTilemapIntersection 10 probeRay ring3 = some probeRes := by
    simp only [rayTilemapIntersection, ddaLoop, jsAbsRecip, jsAbs, Flt.lt, Flt.add, Flt.smul,
      Tilemap.cellAt, probeRay, ring3, probeRes]
    norm_num
    simp [Int.toNat_ofNat]
    norm_num
  exact ⟨h, rayTilemapIntersection_result_formulas 10 probeRay ring3 probeRes h⟩

/-- `RGBLike` (src/types.ts). -/
structure RGB (K : Type) where
  r : K
  g : K
  b : K
  deriving DecidableEq

/-- `Light` interface (src/Light.ts). -/
structure Light (K : Type) where
  direction : Vec3 K
  color : RGB K
  ambientColor : RGB K

/-- `Fog` interface (src/Fog.ts, not under src/ but fully determined by its
uses): near/far distances and a colour. -/
structure Fog (K : Type) where
  near : K
  far : K
  color : RGB K

/-- `Texture` interface: RGBA bytes in row-major order. -/
structure Texture where
  width : ℕ
  height : ℕ
  data : List ℕ
  deriving DecidableEq

/-- `FrameBuffer` interface: same shape as `Texture`. -/
structure FrameBuffer where
  width : ℕ
  height : ℕ
  data : List ℕ
  deriving DecidableEq

/-- The mutable state of a `Raycaster` instance: the fields `width`, `height`,
`rgba` (borrowed frame buffer bytes) and `zBuffer` of the class.  A z-buffer
entry is `none` for the JS `undefined` holes of the freshly constructed
`new Array(width)`, otherwise a written number (`Flt` so that `+∞` is
representable as a value). -/
structure Raycaster (K : Type) where
  width : ℕ
  height : ℕ
  rgba : List ℕ
  zBuffer : List (Option (Flt K))
  deriving DecidableEq

/-- The `Raycaster` constructor. -/
def Raycaster.make (K : Type) (frameBuffer : FrameBuffer) : Raycaster K :=
  { width := frameBuffer.width
    height := frameBuffer.height
    rgba := frameBuffer.data
    zBuffer := List.replicate frameBuffer.width none }

/-- `Number.MAX_VALUE`, the largest finite double: `(2^53 − 1) · 2^971`. -/
def maxValue {K : Type} [LinearOrderedField K] : K := (2 ^ 53 - 1) * 2 ^ 971

/-- `BufferType` of the source (the string union `"color" | "depth"`). -/
inductive BufferType where
  | color
  | depth
  deriving DecidableEq

/-- The depth-clear loop of `Raycaster.clear`:
`for (let i = 0; i < this.width; i++) { this.zBuffer[i++] = Number.MAX_VALUE; }`.
The index advances twice per iteration (`i++` in the body and `i++` in the
update), so the writes land on indices 0, 2, 4, ….  `steps` is fuel for the
loop; `width` iterations always suffice. -/
def clearDepthLoop {K : Type} [LinearOrderedField K] (w : ℕ) :
    ℕ → ℕ → List (Option (Flt K)) → List (Option (Flt K))
  | 0, _, z => z
  | steps + 1, i, z =>
    if i < w then clearDepthLoop w steps (i + 2) (z.set i (some (.fin maxValue))) else z

/-- `Raycaster.clear`: an empty target list means both buffers.  The colour
clear zeroes every byte (the source zeroes 32-bit words of the same buffer;
`rgba.length` is a multiple of 4 for any actual frame buffer, so the byte-wise
semantics agree). -/
def Raycaster.clear {K : Type} [LinearOrderedField K] (targets : List BufferType)
    (st : Raycaster K) : Raycaster K :=
  let targets := if 0 < targets.length then targets else [BufferType.color, BufferType.depth]
  targets.foldl
    (fun st t =>
      match t with
      | BufferType.color => { st with rgba := List.replicate st.rgba.length 0 }
      | BufferType.depth => { st with zBuffer := clearDepthLoop st.width st.width 0 st.zBuffer })
    st

/-- JS `| 0` on the values produced in the renderer: truncation toward zero.
(The 32-bit wrap-around of `| 0` is not modelled; all modelled quantities stay
far below 2^31 on the code paths the claims depend on.) -/
def jsTrunc {K : Type} [LinearOrderedField K] [FloorRing K] (x : K) : ℤ :=
  if 0 ≤ x then ⌊x⌋ else -⌊-x⌋

/-- A store into a `Uint8ClampedArray`: clamp to `[0, 255]`, rounding halves
to even, exactly as JS does. -/
def jsClamp8 {K : Type} [LinearOrderedField K] [FloorRing K] (v : K) : ℕ :=
  if v ≤ 0 then 0
  else if 255 ≤ v then 255
  else
    (if v - ⌊v⌋ < 1 / 2 then ⌊v⌋
     else if 1 / 2 < v - ⌊v⌋ then ⌊v⌋ + 1
     else if Even ⌊v⌋ then ⌊v⌋ else ⌊v⌋ + 1).toNat

/-- A read `data[j]` from a typed array.  An out-of-range read yields JS
`undefined`; on the alpha-test path `undefined > 0` is false, which `0`
reproduces.  (On arithmetic paths JS would propagate `NaN` and clamp the final
store to 0; the claims below never depend on out-of-range texture reads.) -/
def byteAt (data : List ℕ) (j : ℤ) : ℕ :=
  if 0 ≤ j then (data.get? j.toNat).getD 0 else 0

/-- A store `data[i] = v` into a typed array: out-of-range stores are silently
discarded, as in JS. -/
def setByte (data : List ℕ) (i : ℤ) (v : ℕ) : List ℕ :=
  if 0 ≤ i then data.set i.toNat v else data

/-- The unshaded pixel loop of `draw_wall_vline` (the `!lightColor && !fog`
branch): per row, `V = (texture.height * v) | 0`, destination index
`i = (w*y + x)*4`, source index `j = (texture.width*V + U)*4`, copy 4 bytes,
`v += dv`. -/
def wallLoopRaw {K : Type} [LinearOrderedField K] [FloorRing K]
    (w : ℕ) (texture : Texture) (x U : ℤ) (dv : K) (endY : ℤ) :
    ℕ → ℤ → K → List ℕ → List ℕ
  | 0, _, _, rgba => rgba
  | fuel + 1, y, v, rgba =>
    if y < endY then
      let V := jsTrunc ((texture.height : K) * v)
      let i := ((w : ℤ) * y + x) * 4
      let j := ((texture.width : ℤ) * V + U) * 4
      let rgba := setByte rgba (i + 0) (byteAt texture.data (j + 0))
      let rgba := setByte rgba (i + 1) (byteAt texture.data (j + 1))
      let rgba := setByte rgba (i + 2) (byteAt texture.data (j + 2))
      let rgba := setByte rgba (i + 3) (byteAt texture.data (j + 3))
      wallLoopRaw w texture x U dv endY fuel (y + 1) (v + dv) rgba
    else rgba

/-- The shaded pixel loop of `draw_wall_vline`: per channel the store is
`fogC + tex * c` (clamped), alpha is copied. -/
def wallLoopShaded {K : Type} [LinearOrderedField K] [FloorRing K]
    (w : ℕ) (texture : Texture) (x U : ℤ) (dv : K) (endY : ℤ)
    (r g b fogR fogG fogB : K) :
    ℕ → ℤ → K → List ℕ → List ℕ
  | 0, _, _, rgba => rgba
  | fuel + 1, y, v, rgba =>
    if y < endY then
      let V := jsTrunc ((texture.height : K) * v)
      let i := ((w : ℤ) * y + x) * 4
      let j := ((texture.width : ℤ) * V + U) * 4
      let rgba := setByte rgba (i + 0) (jsClamp8 (fogR + (byteAt texture.data (j + 0) : K) * r))
      let rgba := setByte rgba (i + 1) (jsClamp8 (fogG + (byteAt texture.data (j + 1) : K) * g))
      let rgba := setByte rgba (i + 2) (jsClamp8 (fogB + (byteAt texture.data (j + 2) : K) * b))
      let rgba := setByte rgba (i + 3) (byteAt texture.data (j + 3))
      wallLoopShaded w texture x U dv endY r g b fogR fogG fogB fuel (y + 1) (v + dv) rgba
    else rgba

/-- `Raycaster.draw_wall_vline` (private method).  Note the shaded branch
initialises the fog contribution to `1` per channel even when no fog is given
(`let fogR = 1; ...` in the source), and multiplies the light colour by the
fog factor when fog is present. -/
def Raycaster.draw_wall_vline {K : Type} [LinearOrderedField K] [FloorRing K]
    (st : Raycaster K) (texture : Texture) (x U start0 end0 : ℤ)
    (lightColor : Option (RGB K)) (fog : Option (Fog K)) (distance : K) : Raycaster K :=
  let dv : K := 1 / ((end0 : K) - (start0 : K))
  let v0 : K := if start0 < 0 then (-start0 : ℤ) * dv else 0
  let start1 := max start0 0
  let end1 := min end0 (st.height : ℤ)
  match lightColor, fog with
  | none, none =>
    let rgba := wallLoopRaw st.width texture x U dv end1 (end1 - start1).toNat start1 v0 st.rgba
    { st with rgba := rgba }
  | _, _ =>
    let r : K := match lightColor with | some lc => lc.r | none => 1
    let g : K := match lightColor with | some lc => lc.g | none => 1
    let b : K := match lightColor with | some lc => lc.b | none => 1
    match fog with
    | none =>
      let rgba := wallLoopShaded st.width texture x U dv end1 r g b 1 1 1
        (end1 - start1).toNat start1 v0 st.rgba
      { st with rgba := rgba }
    | some fg =>
      let f : K := min 1 (max 0 ((fg.far - distance) / (fg.far - fg.near)))
      let rgba := wallLoopShaded st.width texture x U dv end1 (r * f) (g * f) (b * f)
        (fg.color.r * (1 - f) * 255) (fg.color.g * (1 - f) * 255) (fg.color.b * (1 - f) * 255)
        (end1 - start1).toNat start1 v0 st.rgba
      { st with rgba := rgba }

/-- The camera fields the renderer reads: `position`, the `direction` accessor
and the `plane` accessor of the `Camera` class. -/
structure CameraData (K : Type) where
  position : Vec2 K
  direction : Vec2 K
  plane : Vec2 K

/-- One column `x` of `Raycaster.renderWall`.  `none` models the two ways the
source can fail to complete: the DDA loop not terminating, or the texture
lookup `textures[map[...] - 1]` yielding `undefined` (a crash at
`texture.width`). -/
def renderWallColumn {K : Type} [LinearOrderedField K] [FloorRing K]
    (ddaFuel : ℕ) (tm : Tilemap) (textures : List Texture)
    (light : Option (Light K)) (fog : Option (Fog K)) (camera : CameraData K)
    (x : ℕ) (st : Raycaster K) : Option (Raycaster K) :=
  let camera_x : K := (x : K) / (st.width : K) * 2 - 1
  let ray_dir_x := camera.direction.x + camera.plane.x * camera_x
  let ray_dir_y := camera.direction.y + camera.plane.y * camera_x
  match rayTilemapIntersection ddaFuel ⟨camera.position, ⟨ray_dir_x, ray_dir_y⟩⟩ tm with
  | none => none
  | some res =>
    let h : ℤ := ⌊(st.height : K) / res.perpendicularDistance⌋
    let start0 : ℤ := ⌊((st.height : K) - (h : K)) / 2⌋
    let end0 : ℤ := ⌊((st.height : K) + (h : K)) / 2⌋
    let wallPos : K := if res.side = 0 then res.hitPosition.y else res.hitPosition.x
    let u : K := wallPos - (jsTrunc wallPos : K)
    match tm.cellAt res.mapPosition.x res.mapPosition.y with
    | none => none
    | some c =>
      let tex_id : ℤ := (c : ℤ) - 1
      match (if 0 ≤ tex_id then textures.get? tex_id.toNat else none) with
      | none => none
      | some texture =>
        let U0 := jsTrunc (u * (texture.width : K))
        let U := if (res.side = 0 ∧ ray_dir_x < 0) ∨ (res.side = 1 ∧ 0 < ray_dir_y) then
            (texture.width : ℤ) - U0 - 1 else U0
        let lightColor : Option (RGB K) :=
          match light with
          | none => none
          | some l =>
            let intensity :=
              max 0 (l.direction.x * (res.normal.x : K) + l.direction.y * (res.normal.y : K))
            some ⟨l.color.r * intensity + l.ambientColor.r,
                  l.color.g * intensity + l.ambientColor.g,
                  l.color.b * intensity + l.ambientColor.b⟩
        let st' := st.draw_wall_vline texture x U start0 end0 lightColor fog
            res.perpendicularDistance
        some { st' with zBuffer := st'.zBuffer.set x (some (.fin res.perpendicularDistance)) }

/-- The column loop `for (let x = 0; x < this.width; x++)` of `renderWall`. -/
def renderWallLoop {K : Type} [LinearOrderedField K] [FloorRing K]
    (ddaFuel : ℕ) (tm : Tilemap) (textures : List Texture)
    (light : Option (Light K)) (fog : Option (Fog K)) (camera : CameraData K) :
    ℕ → ℕ → Raycaster K → Option (Raycaster K)
  | 0, x, st => if x < st.width then none else some st
  | colsFuel + 1, x, st =>
    if x < st.width then
      match renderWallColumn ddaFuel tm textures light fog camera x st with
      | none => none
      | some st' => renderWallLoop ddaFuel tm textures light fog camera colsFuel (x + 1) st'
    else some st

/-- `Raycaster.renderWall`. -/
def Raycaster.renderWall {K : Type} [LinearOrderedField K] [FloorRing K]
    (st : Raycaster K) (ddaFuel : ℕ) (tm : Tilemap) (textures : List Texture)
    (light : Option (Light K)) (fog : Option (Fog K)) (camera : CameraData K) :
    Option (Raycaster K) :=
  renderWallLoop ddaFuel tm textures light fog camera st.width 0 st

/-- What one wall column does to the state: it leaves `width`/`height` alone
(`draw_wall_vline` only writes pixel bytes) and stores the column ray's
perpendicular distance into `zBuffer[x]`. -/
lemma renderWallColumn_spec {K : Type} [LinearOrderedField K] [FloorRing K]
    (ddaFuel : ℕ) (tm : Tilemap) (textures : List Texture)
    (light : Option (Light K)) (fog : Option (Fog K)) (camera : CameraData K)
    (x : ℕ) (st st' : Raycaster K)
    (h : renderWallColumn ddaFuel tm textures light fog camera x st = some st') :
    st'.width = st.width ∧ st'.height = st.height ∧
    ∃ res, rayTilemapIntersection ddaFuel
        ⟨camera.position,
         ⟨camera.direction.x + camera.plane.x * ((x : K) / (st.width : K) * 2 - 1),
          camera.direction.y + camera.plane.y * ((x : K) / (st.width : K) * 2 - 1)⟩⟩ tm =
        some res ∧
      st'.zBuffer = st.zBuffer.set x (some (.fin res.perpendicularDistance)) := by
  simp only [renderWallColumn] at h
  split at h
  · exact absurd h (by simp)
  · next res hres =>
    split at h
    · exact absurd h (by simp)
    · next c hcell =>
      split at h
      · exact absurd h (by simp)
      · next texture htex =>
        cases h
        refine ⟨?_, ?_, res, hres, ?_⟩ <;>
          simp [Raycaster.draw_wall_vline] <;>
          rcases light with _ | l <;> rcases fog with _ | fg <;> simp

/-- Loop invariant for the wall-stage column loop: columns below the cursor
keep their z-buffer entries, columns from the cursor on get the perpendicular
distance of their own ray. -/
lemma renderWallLoop_zbuffer {K : Type} [LinearOrderedField K] [FloorRing K]
    (ddaFuel : ℕ) (tm : Tilemap) (textures : List Texture)
    (light : Option (Light K)) (fog : Option (Fog K)) (camera : CameraData K) :
    ∀ (colsFuel x : ℕ) (st st' : Raycaster K),
      st.zBuffer.length = st.width →
      renderWallLoop ddaFuel tm textures light fog camera colsFuel x st = some st' →
      st'.width = st.width ∧ st'.zBuffer.length = st.width ∧
      (∀ i, i < x → st'.zBuffer[i]? = st.zBuffer[i]?) ∧
      (∀ i, x ≤ i → i < st.width →
        ∃ res, rayTilemapIntersection ddaFuel
            ⟨camera.position,
             ⟨camera.direction.x + camera.plane.x * ((i : K) / (st.width : K) * 2 - 1),
              camera.direction.y + camera.plane.y * ((i : K) / (st.width : K) * 2 - 1)⟩⟩ tm =
            some res ∧
          st'.zBuffer[i]? = some (some (.fin res.perpendicularDistance))) := by
  intro colsFuel
  induction colsFuel with
  | zero =>
    intro x st st' hlen h
    simp only [renderWallLoop] at h
    split at h
    · exact absurd h (by simp)
    · next hx =>
      cases h
      exact ⟨rfl, hlen, fun i _ => rfl, fun i hxi hi => absurd (lt_of_le_of_lt hxi hi) hx⟩
  | succ n ih =>
    intro x st st' hlen h
    simp only [renderWallLoop] at h
    split at h
    · next hx =>
      match hcol : renderWallColumn ddaFuel tm textures light fog camera x st with
      | none => rw [hcol] at h; cases h
      | some st1 =>
        rw [hcol] at h
        obtain ⟨hw1, hh1, res, hres, hzb1⟩ :=
          renderWallColumn_spec ddaFuel tm textures light fog camera x st st1 hcol
        have hlen1 : st1.zBuffer.length = st1.width := by
          rw [hzb1, hw1, List.length_set, hlen]
        obtain ⟨hw', hlen', hkeep, hdone⟩ := ih (x + 1) st1 st' hlen1 h
        rw [hw1] at hw' hlen' hdone
        have hxlen : x < st.zBuffer.length := by rw [hlen]; exact hx
        refine ⟨hw', hlen', ?_, ?_⟩
        · intro i hix
          rw [hkeep i (Nat.lt_succ_of_lt hix), hzb1,
            List.getElem?_set_ne (by omega)]
        · intro i hxi hi
          rcases Nat.lt_or_ge x i with hlt | hge
          · obtain ⟨res2, hres2, hz2⟩ := hdone i hlt hi
            exact ⟨res2, hres2, hz2⟩
          · have hxe : i = x := le_antisymm hge hxi
            subst hxe
            refine ⟨res, hres, ?_⟩
            rw [hkeep i (Nat.lt_succ_self i), hzb1, List.getElem?_set_eq_of_lt _ hxlen]
    · next hx =>
      cases h
      exact ⟨rfl, hlen, fun i _ => rfl, fun i hxi hi => absurd (lt_of_le_of_lt hxi hi) hx⟩

/-- C7: after the wall stage completes, every screen column `x` has
`zBuffer[x]` equal to the `perpendicularDistance` returned by
`rayTilemapIntersection` for that column's ray (for any light and fog). -/
theorem renderWall_zbuffer_eq_perpendicular {K : Type} [LinearOrderedField K] [FloorRing K]
    (ddaFuel : ℕ) (tm : Tilemap) (textures : List Texture)
    (light : Option (Light K)) (fog : Option (Fog K)) (camera : CameraData K)
    (st st' : Raycaster K) (hlen : st.zBuffer.length = st.width)
    (h : st.renderWall ddaFuel tm textures light fog camera = some st') :
    ∀ x : ℕ, x < st.width →
      ∃ res, rayTilemapIntersection ddaFuel
          ⟨camera.position,
           ⟨camera.direction.x + camera.plane.x * ((x : K) / (st.width : K) * 2 - 1),
            camera.direction.y + camera.plane.y * ((x : K) / (st.width : K) * 2 - 1)⟩⟩ tm =
          some res ∧
        st'.zBuffer[x]? = some (some (.fin res.perpendicularDistance)) := by
  intro x hx
  obtain ⟨_, _, _, hdone⟩ :=
    renderWallLoop_zbuffer ddaFuel tm textures light fog camera st.width 0 st st' hlen h
  exact hdone x (Nat.zero_le x) hx

/-- A 1×1 frame buffer for concrete runs. -/
def probeFrame : FrameBuffer := ⟨1, 1, [0, 0, 0, 0]⟩

/-- A 1×1 texture with distinctive bytes. -/
def probeTex : Texture := ⟨1, 1, [10, 20, 30, 255]⟩

/-- Concrete camera data placed at the centre of `ring3` looking in +x with a
degenerate (zero) plane, so every column casts the same axis-aligned ray. -/
def probeCam : CameraData ℚ := ⟨⟨3 / 2, 3 / 2⟩, ⟨1, 0⟩, ⟨0, 0⟩⟩

/-- The state `renderWall` produces from `probeFrame` against `ring3`. -/
def probeWallOut : Raycaster ℚ := ⟨1, 1, [10, 20, 30, 255], [some (.fin (1 / 2))]⟩

/-- Witness for C7 at a concrete input. -/
theorem renderWall_zbuffer_eq_perpendicular_witness :
    (Raycaster.make ℚ probeFrame).renderWall 10 ring3 [probeTex] none none probeCam =
      some probeWallOut ∧
    ∃ res, rayTilemapIntersection 10
        ⟨probeCam.position,
         ⟨probeCam.direction.x + probeCam.plane.x *
            (((0 : ℕ) : ℚ) / (((Raycaster.make ℚ probeFrame).width : ℕ) : ℚ) * 2 - 1),
          probeCam.direction.y + probeCam.plane.y *
            (((0 : ℕ) : ℚ) / (((Raycaster.make ℚ probeFrame).width : ℕ) : ℚ) * 2 - 1)⟩⟩
        ring3 = some res ∧
      probeWallOut.zBuffer[(0 : ℕ)]? = some (some (.fin res.perpendicularDistance)) := by
  have hrw : (Raycaster.make ℚ probeFrame).renderWall 10 ring3 [probeTex] none none probeCam =
      some probeWallOut := by
    simp only [Raycaster.renderWall, renderWallLoop, renderWallColumn, Raycaster.make,
      probeFrame, probeTex, probeCam, ring3, probeWallOut,
      rayTilemapIntersection, ddaLoop, jsAbsRecip, jsAbs, Flt.lt, Flt.add, Flt.smul,
      Tilemap.cellAt, Raycaster.draw_wall_vline, wallLoopRaw, jsTrunc, byteAt, setByte]
    norm_num
    simp [Int.toNat_ofNat]
    norm_num
    simp only [wallLoopRaw, jsTrunc, byteAt, setByte]
    norm_num
    simp [Int.toNat_ofNat]
  refine ⟨hrw, ?_⟩
  have := renderWall_zbuffer_eq_perpendicular 10 ring3 [probeTex] none none probeCam
    (Raycaster.make ℚ probeFrame) probeWallOut (by simp [Raycaster.make, probeFrame])
    hrw 0 (by simp [Raycaster.make, probeFrame])
  exact this

/-- C1 (failing input): on a fresh 2-column renderer, `clear()` writes
`Number.MAX_VALUE` (a finite value, not `+∞`) to column 0 and leaves column 1
untouched (still the `undefined` hole of `new Array(width)`): the depth-clear
loop advances its index twice per iteration.  So not every z-buffer entry
equals `+∞` afterwards. -/
theorem clear_depth_skips_odd_columns_and_is_finite :
    (Raycaster.clear [] (Raycaster.make ℚ ⟨2, 1, [0, 0, 0, 0, 0, 0, 0, 0]⟩)).zBuffer =
      [some (Flt.fin maxValue), none] ∧
    some (Flt.fin (maxValue : ℚ)) ≠ some Flt.inf ∧
    (none : Option (Flt ℚ)) ≠ some Flt.inf := by
  refine ⟨?_, by simp, by simp⟩
  simp only [Raycaster.clear, Raycaster.make, clearDepthLoop, List.foldl, List.replicate]
  norm_num

/-- The inner x-loop of `renderFloorAndCeiling` in the unshaded
(`!light && !fog`) branch: wrap `u`,`v` into `[0,1)`, sample each optional
texture, write 4 bytes (ceiling at row `y`, floor at row `H−1−y`), advance
`floorPos` by `floorStep`. -/
def fcXLoopRaw {K : Type} [LinearOrderedField K] [FloorRing K]
    (w H y : ℕ) (ceilingTexture floorTexture : Option Texture) (floorStep : Vec2 K) :
    ℕ → ℕ → Vec2 K → List ℕ → List ℕ
  | 0, _, _, rgba => rgba
  | fuel + 1, x, floorPos, rgba =>
    if x < w then
      let cellX : ℤ := ⌊floorPos.x⌋
      let cellY : ℤ := ⌊floorPos.y⌋
      let u0 := floorPos.x - (cellX : K)
      let u := if 0 ≤ u0 then u0 else 1 + u0
      let v0 := floorPos.y - (cellY : K)
      let v := if 0 ≤ v0 then v0 else 1 + v0
      let rgba :=
        match ceilingTexture with
        | none => rgba
        | some ct =>
          let tx : ℤ := ⌊(ct.width : K) * u⌋
          let ty : ℤ := ⌊(ct.height : K) * v⌋
          let i : ℤ := ((w : ℤ) * y + x) * 4
          let j : ℤ := ((ct.width : ℤ) * ty + tx) * 4
          let rgba := setByte rgba (i + 0) (byteAt ct.data (j + 0))
          let rgba := setByte rgba (i + 1) (byteAt ct.data (j + 1))
          let rgba := setByte rgba (i + 2) (byteAt ct.data (j + 2))
          setByte rgba (i + 3) (byteAt ct.data (j + 3))
      let rgba :=
        match floorTexture with
        | none => rgba
        | some ft =>
          let tx : ℤ := ⌊(ft.width : K) * u⌋
          let ty : ℤ := ⌊(ft.height : K) * v⌋
          let i : ℤ := ((w : ℤ) * ((H : ℤ) - 1 - y) + x) * 4
          let j : ℤ := ((ft.width : ℤ) * ty + tx) * 4
          let rgba := setByte rgba (i + 0) (byteAt ft.data (j + 0))
          let rgba := setByte rgba (i + 1) (byteAt ft.data (j + 1))
          let rgba := setByte rgba (i + 2) (byteAt ft.data (j + 2))
          setByte rgba (i + 3) (byteAt ft.data (j + 3))
      fcXLoopRaw w H y ceilingTexture floorTexture floorStep fuel (x + 1)
        ⟨floorPos.x + floorStep.x, floorPos.y + floorStep.y⟩ rgba
    else rgba

/-- The inner x-loop of `renderFloorAndCeiling` in the shaded branch: per
channel the store is `fogC + tex * lightC` (clamped), alpha copied. -/
def fcXLoopShaded {K : Type} [LinearOrderedField K] [FloorRing K]
    (w H y : ℕ) (ceilingTexture floorTexture : Option Texture) (floorStep : Vec2 K)
    (fogR fogG fogB ceilingLightR ceilingLightG ceilingLightB
      floorLightR floorLightG floorLightB : K) :
    ℕ → ℕ → Vec2 K → List ℕ → List ℕ
  | 0, _, _, rgba => rgba
  | fuel + 1, x, floorPos, rgba =>
    if x < w then
      let cellX : ℤ := ⌊floorPos.x⌋
      let cellY : ℤ := ⌊floorPos.y⌋
      let u0 := floorPos.x - (cellX : K)
      let u := if 0 ≤ u0 then u0 else 1 + u0
      let v0 := floorPos.y - (cellY : K)
      let v := if 0 ≤ v0 then v0 else 1 + v0
      let rgba :=
        match ceilingTexture with
        | none => rgba
        | some ct =>
          let tx : ℤ := ⌊(ct.width : K) * u⌋
          let ty : ℤ := ⌊(ct.height : K) * v⌋
          let i : ℤ := ((w : ℤ) * y + x) * 4
          let j : ℤ := ((ct.width : ℤ) * ty + tx) * 4
          let rgba := setByte rgba (i + 0)
            (jsClamp8 (fogR + (byteAt ct.data (j + 0) : K) * ceilingLightR))
          let rgba := setByte rgba (i + 1)
            (jsClamp8 (fogG + (byteAt ct.data (j + 1) : K) * ceilingLightG))
          let rgba := setByte rgba (i + 2)
            (jsClamp8 (fogB + (byteAt ct.data (j + 2) : K) * ceilingLightB))
          setByte rgba (i + 3) (byteAt ct.data (j + 3))
      let rgba :=
        match floorTexture with
        | none => rgba
        | some ft =>
          let tx : ℤ := ⌊(ft.width : K) * u⌋
          let ty : ℤ := ⌊(ft.height : K) * v⌋
          let i : ℤ := ((w : ℤ) * ((H : ℤ) - 1 - y) + x) * 4
          let j : ℤ := ((ft.width : ℤ) * ty + tx) * 4
          let rgba := setByte rgba (i + 0)
            (jsClamp8 (fogR + (byteAt ft.data (j + 0) : K) * floorLightR))
          let rgba := setByte rgba (i + 1)
            (jsClamp8 (fogG + (byteAt ft.data (j + 1) : K) * floorLightG))
          let rgba := setByte rgba (i + 2)
            (jsClamp8 (fogB + (byteAt ft.data (j + 2) : K) * floorLightB))
          setByte rgba (i + 3) (byteAt ft.data (j + 3))
      fcXLoopShaded w H y ceilingTexture floorTexture floorStep
        fogR fogG fogB ceilingLightR ceilingLightG ceilingLightB
        floorLightR floorLightG floorLightB fuel (x + 1)
        ⟨floorPos.x + floorStep.x, floorPos.y + floorStep.y⟩ rgba
    else rgba

/-- The y-loop of `renderFloorAndCeiling`, unshaded branch.  The loop runs
while `y < height / 2` (floating-point halving in the source). -/
def fcYLoopRaw {K : Type} [LinearOrderedField K] [FloorRing K]
    (w H : ℕ) (position direction plane : Vec2 K)
    (ceilingTexture floorTexture : Option Texture) :
    ℕ → ℕ → List ℕ → List ℕ
  | 0, _, rgba => rgba
  | fuel + 1, y, rgba =>
    if (y : K) < (H : K) / 2 then
      let rayDir0 : Vec2 K := ⟨direction.x - plane.x, direction.y - plane.y⟩
      let rayDir1 : Vec2 K := ⟨direction.x + plane.x, direction.y + plane.y⟩
      let p := jsAbs ((y : K) - (H : K) / 2)
      let rowDistance := ((H : K) / 2) / p
      let floorStep : Vec2 K :=
        ⟨(rayDir1.x - rayDir0.x) * (rowDistance / (w : K)),
         (rayDir1.y - rayDir0.y) * (rowDistance / (w : K))⟩
      let floorPos : Vec2 K :=
        ⟨position.x + rayDir0.x * rowDistance, position.y + rayDir0.y * rowDistance⟩
      let rgba := fcXLoopRaw w H y ceilingTexture floorTexture floorStep w 0 floorPos rgba
      fcYLoopRaw w H position direction plane ceilingTexture floorTexture fuel (y + 1) rgba
    else rgba

/-- The y-loop of `renderFloorAndCeiling`, shaded branch.  Per row the fog
factor is `f = !fog ? 0 : clamp((far − rowDistance)/(far − near), 0, 1)` — in
particular `f = 0` when no fog is supplied — and the per-channel light factors
are the base factors times `f`. -/
def fcYLoopShaded {K : Type} [LinearOrderedField K] [FloorRing K]
    (w H : ℕ) (position direction plane : Vec2 K)
    (ceilingTexture floorTexture : Option Texture) (fog : Option (Fog K))
    (baseFogR baseFogG baseFogB baseCeilingLightR baseCeilingLightG baseCeilingLightB
      baseFloorLightR baseFloorLightG baseFloorLightB : K) :
    ℕ → ℕ → List ℕ → List ℕ
  | 0, _, rgba => rgba
  | fuel + 1, y, rgba =>
    if (y : K) < (H : K) / 2 then
      let rayDir0 : Vec2 K := ⟨direction.x - plane.x, direction.y - plane.y⟩
      let rayDir1 : Vec2 K := ⟨direction.x + plane.x, direction.y + plane.y⟩
      let p := jsAbs ((y : K) - (H : K) / 2)
      let rowDistance := ((H : K) / 2) / p
      let floorStep : Vec2 K :=
        ⟨(rayDir1.x - rayDir0.x) * (rowDistance / (w : K)),
         (rayDir1.y - rayDir0.y) * (rowDistance / (w : K))⟩
      let floorPos : Vec2 K :=
        ⟨position.x + rayDir0.x * rowDistance, position.y + rayDir0.y * rowDistance⟩
      let f : K :=
        match fog with
        | none => 0
        | some fg => max 0 (min 1 ((fg.far - rowDistance) / (fg.far - fg.near)))
      let rgba := fcXLoopShaded w H y ceilingTexture floorTexture floorStep
        ((1 - f) * baseFogR) ((1 - f) * baseFogG) ((1 - f) * baseFogB)
        (baseCeilingLightR * f) (baseCeilingLightG * f) (baseCeilingLightB * f)
        (baseFloorLightR * f) (baseFloorLightG * f) (baseFloorLightB * f)
        w 0 floorPos rgba
      fcYLoopShaded w H position direction plane ceilingTexture floorTexture fog
        baseFogR baseFogG baseFogB baseCeilingLightR baseCeilingLightG baseCeilingLightB
        baseFloorLightR baseFloorLightG baseFloorLightB fuel (y + 1) rgba
    else rgba

/-- The `baseFloorLight*` values of `renderFloorAndCeiling`: set only when both
a light and the floor texture are present, otherwise left at their initial 1. -/
def floorBaseLight {K : Type} [LinearOrderedField K]
    (light : Option (Light K)) (floorTexture : Option Texture) : RGB K :=
  match light, floorTexture with
  | some l, some _ =>
    ⟨l.color.r * max 0 l.direction.z + l.ambientColor.r,
     l.color.g * max 0 l.direction.z + l.ambientColor.g,
     l.color.b * max 0 l.direction.z + l.ambientColor.b⟩
  | _, _ => ⟨1, 1, 1⟩

/-- The `baseCeilingLight*` values of `renderFloorAndCeiling` (the normal
points down, so the intensity uses `light.direction.z * -1`). -/
def ceilingBaseLight {K : Type} [LinearOrderedField K]
    (light : Option (Light K)) (ceilingTexture : Option Texture) : RGB K :=
  match light, ceilingTexture with
  | some l, some _ =>
    ⟨l.color.r * max 0 (l.direction.z * (-1)) + l.ambientColor.r,
     l.color.g * max 0 (l.direction.z * (-1)) + l.ambientColor.g,
     l.color.b * max 0 (l.direction.z * (-1)) + l.ambientColor.b⟩
  | _, _ => ⟨1, 1, 1⟩

/-- The `baseFog*` values of `renderFloorAndCeiling`. -/
def fogBase {K : Type} [LinearOrderedField K] (fog : Option (Fog K)) : RGB K :=
  match fog with
  | some fg => ⟨fg.color.r * 255, fg.color.g * 255, fg.color.b * 255⟩
  | none => ⟨0, 0, 0⟩

/-- `Raycaster.renderFloorAndCeiling`. -/
def Raycaster.renderFloorAndCeiling {K : Type} [LinearOrderedField K] [FloorRing K]
    (st : Raycaster K) (floorTexture ceilingTexture : Option Texture)
    (light : Option (Light K)) (fog : Option (Fog K)) (camera : CameraData K) :
    Raycaster K :=
  if light.isNone && fog.isNone then
    let rgba := fcYLoopRaw st.width st.height camera.position camera.direction camera.plane
      ceilingTexture floorTexture st.height 0 st.rgba
    { st with rgba := rgba }
  else
    let baseFloorLight := floorBaseLight light floorTexture
    let baseCeilingLight := ceilingBaseLight light ceilingTexture
    let baseFog := fogBase fog
    let rgba := fcYLoopShaded st.width st.height camera.position camera.direction camera.plane
      ceilingTexture floorTexture fog baseFog.r baseFog.g baseFog.b
      baseCeilingLight.r baseCeilingLight.g baseCeilingLight.b
      baseFloorLight.r baseFloorLight.g baseFloorLight.b st.height 0 st.rgba
    { st with rgba := rgba }

/-- A light with colour `(0,0,0)` and ambient `(1,1,1)` — under the claimed
shading identity the output should equal the raw texture sample. -/
def probeLight : Light ℚ := ⟨⟨0, 0, 1⟩, ⟨0, 0, 0⟩, ⟨1, 1, 1⟩⟩

/-- C2 (failing input): with `light.color = 0`, `ambient = 1` and no fog, the
wall stage writes `texture + 1` per channel (the shaded branch of
`draw_wall_vline` initialises the fog contribution to 1, not 0), and the
floor stage writes 0 per channel (`renderFloorAndCeiling` sets the fog factor
`f` to 0 instead of 1 when fog is absent, and multiplies the light factors by
`f`).  Texture bytes `(10,20,30)` come out as `(11,21,31)` on the wall and
`(0,0,0)` on the floor — not the raw texture sample the claim requires. -/
theorem shading_identity_fails_on_walls_and_floor :
    (Raycaster.make ℚ probeFrame).renderWall 10 ring3 [probeTex]
        (some probeLight) none probeCam =
      some ⟨1, 1, [11, 21, 31, 255], [some (.fin (1 / 2))]⟩ ∧
    (Raycaster.renderFloorAndCeiling ⟨1, 2, [0, 0, 0, 0, 0, 0, 0, 0], [none]⟩
        (some probeTex) none (some probeLight) none probeCam).rgba =
      [0, 0, 0, 0, 0, 0, 0, 255] ∧
    probeTex.data = [10, 20, 30, 255] := by
  refine ⟨?_, ?_, rfl⟩
  · simp only [Raycaster.renderWall, renderWallLoop, renderWallColumn, Raycaster.make,
      probeFrame, probeTex, probeCam, probeLight, ring3,
      rayTilemapIntersection, ddaLoop, jsAbsRecip, jsAbs, Flt.lt, Flt.add, Flt.smul,
      Tilemap.cellAt, Raycaster.draw_wall_vline, jsTrunc]
    norm_num
    simp [Int.toNat_ofNat]
    norm_num
    simp only [wallLoopShaded, jsTrunc, byteAt, setByte]
    norm_num
    simp [Int.toNat_ofNat, jsClamp8]
    try norm_num
    try simp [Int.toNat_ofNat]
  · simp only [Raycaster.renderFloorAndCeiling, floorBaseLight, ceilingBaseLight, fogBase,
      fcYLoopShaded, fcXLoopShaded, probeTex, probeCam, probeLight, jsAbs, byteAt, setByte]
    norm_num
    simp [Int.toNat_ofNat, jsClamp8]
    try norm_num

noncomputable section

/-- `Vec2.rotate` (src/math/Vec2.ts): rotate by `angle` with
`Math.cos`/`Math.sin`. -/
def Vec2.rotate (v : Vec2 ℝ) (angle : ℝ) : Vec2 ℝ :=
  ⟨Real.cos angle * v.x - Real.sin angle * v.y,
   Real.sin angle * v.x + Real.cos angle * v.y⟩

/-- The `Camera` class (src/Camera.ts): private fields `_angle`, `_dir`,
`_plane`, `_aspectRatio` and the public `position`. -/
structure Camera where
  position : Vec2 ℝ
  _angle : ℝ
  _dir : Vec2 ℝ
  _plane : Vec2 ℝ
  _aspectRatio : ℝ

/-- The read-only `angle` accessor: returns `_angle`. -/
def Camera.angle (c : Camera) : ℝ := c._angle

/-- The read-only `direction` accessor: returns `_dir`. -/
def Camera.direction (c : Camera) : Vec2 ℝ := c._dir

/-- The read-only `plane` accessor: returns `_plane`. -/
def Camera.plane (c : Camera) : Vec2 ℝ := c._plane

/-- The `aspectRatio` getter. -/
def Camera.aspectRatio (c : Camera) : ℝ := c._aspectRatio

/-- `Camera.rotateTo`: reconstructs `_dir` and `_plane` from the given angle.
Note that the source does **not** assign `this._angle` here. -/
def Camera.rotateTo (c : Camera) (angle : ℝ) : Camera :=
  { c with _dir := (Vec2.mk 0 (-1)).rotate angle
           _plane := (Vec2.mk (c.aspectRatio / 2) 0).rotate angle }

/-- The `Camera` constructor: stores position, `_angle` and `_aspectRatio`,
then calls `rotateTo(angle)`.  `_dir`/`_plane` are initialised with zero
placeholders (in JS they are simply undefined until `rotateTo` assigns
them). -/
def Camera.make (x y angle aspectRatio : ℝ) : Camera :=
  Camera.rotateTo ⟨⟨x, y⟩, angle, ⟨0, 0⟩, ⟨0, 0⟩, aspectRatio⟩ angle

/-- `Rot(θ)·v`, the rotation-matrix application as the spec writes the camera
invariants. -/
def Rot (θ : ℝ) (v : Vec2 ℝ) : Vec2 ℝ :=
  ⟨v.x * Real.cos θ - v.y * Real.sin θ, v.x * Real.sin θ + v.y * Real.cos θ⟩

/-- C3 (counterexample): `rotateTo` does not store the new angle, so after
constructing a camera at angle 0 and calling `rotateTo 1` the `angle`
accessor still returns 0, not 1, refuting the claim at this input. -/
theorem rotateTo_does_not_set_angle :
    ((Camera.make 0 0 0 1).rotateTo 1).angle ≠ 1 := by
  simp only [Camera.make, Camera.rotateTo, Camera.angle]
  norm_num

/-- C3 (amended): after `rotateTo θ` the direction and plane invariants hold
for θ — `dir = Rot(θ)·(0,−1)` and `plane = Rot(θ)·(a/2, 0)` — but the `angle`
accessor returns the camera's previous angle unchanged (θ is not stored). -/
theorem rotateTo_reconstructs_dir_plane_but_keeps_angle (c : Camera) (θ : ℝ) :
    (c.rotateTo θ).direction = Rot θ ⟨0, -1⟩ ∧
    (c.rotateTo θ).plane = Rot θ ⟨c.aspectRatio / 2, 0⟩ ∧
    (c.rotateTo θ).angle = c.angle := by
  refine ⟨?_, ?_, rfl⟩ <;>
    simp only [Camera.rotateTo, Camera.direction, Camera.plane, Vec2.rotate, Rot] <;>
    exact congrArg₂ Vec2.mk (by ring) (by ring)

/-- `Billboard` interface (src/Billboard.ts). -/
structure Billboard (K : Type) where
  position : Vec2 K
  scale : Vec2 K
  vOffset : K
  angle : K
  textures : List Texture

/-- JS `%`: the remainder whose quotient truncates toward zero. -/
def jsRem (a b : ℝ) : ℝ := a - b * (jsTrunc (a / b) : ℝ)

/-- `Math.atan2(y, x)`: the argument of `x + y·i`, in `(−π, π]` (agrees with
JS on every input except the signed-zero corner cases, which have no
counterpart on `ℝ`). -/
def atan2 (y x : ℝ) : ℝ := Complex.arg ⟨x, y⟩

/-- `const TAU = Math.PI * 2`. -/
def TAU : ℝ := Real.pi * 2

/-- The index computation of `selectTextureByCamera` (Raycaster.ts):
`angleRange = TAU / textures.length`,
`angle = (atan2(dy, dx) - (billboard.angle - angleRange/2)) % TAU`,
`angle = (angle + TAU) % TAU`, `index = Math.floor(angle / angleRange)`. -/
def selectTextureIndex (billboard : Billboard ℝ) (cameraPosition : Vec2 ℝ) : ℤ :=
  let angleRange := TAU / (billboard.textures.length : ℝ)
  let dx := cameraPosition.x - billboard.position.x
  let dy := cameraPosition.y - billboard.position.y
  let angle0 := jsRem (atan2 dy dx - (billboard.angle - angleRange / 2)) TAU
  let angle1 := jsRem (angle0 + TAU) TAU
  ⌊angle1 / angleRange⌋

/-- `selectTextureByCamera`: returns `billboard.textures[index]`.  `none`
models a JS `undefined` result (an out-of-range index). -/
def selectTextureByCamera (billboard : Billboard ℝ) (camera : CameraData ℝ) :
    Option Texture :=
  let index := selectTextureIndex billboard camera.position
  if 0 ≤ index then billboard.textures[index.toNat]? else none

lemma TAU_pos : (0 : ℝ) < TAU := by
  unfold TAU
  have := Real.pi_pos
  linarith

/-- For a non-negative argument, JS `% TAU` is `TAU` times the fractional part
of the quotient. -/
lemma jsRem_eq_fract {w : ℝ} (hw : 0 ≤ w) : jsRem w TAU = TAU * Int.fract (w / TAU) := by
  have hT := TAU_pos
  rw [jsRem, jsTrunc, if_pos (by positivity), Int.fract]
  field_simp
  try ring

/-- The double-`%` idiom of `selectTextureByCamera` computes the mathematical
reduction of `u` into `[0, TAU)`. -/
lemma jsRem_reduce (u : ℝ) :
    jsRem (jsRem u TAU + TAU) TAU = TAU * Int.fract (u / TAU) := by
  have hT := TAU_pos
  set v := u / TAU with hv
  have hu : u = TAU * v := by rw [hv]; field_simp
  have hf0 : 0 ≤ Int.fract v := Int.fract_nonneg v
  have hf1 : Int.fract v < 1 := Int.fract_lt_one v
  by_cases hvn : 0 ≤ v
  · -- first `%` gives `TAU * fract v`, adding TAU and reducing again gives it back
    have h1 : jsRem u TAU = TAU * Int.fract v := by
      rw [hu]
      have : TAU * v / TAU = v := by field_simp
      rw [jsRem_eq_fract (by nlinarith), this]
    rw [h1, jsRem_eq_fract (by nlinarith)]
    have harg : (TAU * Int.fract v + TAU) / TAU = Int.fract v + 1 := by field_simp; ring
    rw [harg]
    rw [show Int.fract v + 1 = Int.fract v + ((1 : ℤ) : ℝ) by norm_num, Int.fract_add_int,
      Int.fract_fract]
  · by_cases hfz : Int.fract v = 0
    · -- `u` is a whole multiple of TAU (and negative)
      have h1 : jsRem u TAU = 0 := by
        rw [jsRem, jsTrunc, ← hv, if_neg hvn]
        have hnegfract : Int.fract (-v) = 0 := by
          rw [Int.fract_neg_eq_zero]
          exact hfz
        have : ((⌊-v⌋ : ℤ) : ℝ) = -v := by
          rw [← Int.self_sub_fract, hnegfract, sub_zero]
        push_cast
        rw [this, hu]
        ring
      rw [h1, zero_add, hfz, mul_zero, jsRem_eq_fract (le_of_lt hT)]
      have : TAU / TAU = ((1 : ℤ) : ℝ) := by field_simp
      rw [this, Int.fract_intCast, mul_zero]
    · -- `u` negative, not a multiple: first `%` gives `TAU * (fract v − 1)`
      have h1 : jsRem u TAU = TAU * (Int.fract v - 1) := by
        rw [jsRem, jsTrunc, ← hv, if_neg hvn]
        have hnegfract : Int.fract (-v) = 1 - Int.fract v := Int.fract_neg hfz
        have : ((⌊-v⌋ : ℤ) : ℝ) = -v - (1 - Int.fract v) := by
          rw [← Int.self_sub_fract, hnegfract]
        push_cast
        rw [this, hu]
        ring
      rw [h1]
      have hpos : 0 < Int.fract v := lt_of_le_of_ne hf0 (Ne.symm hfz)
      rw [show TAU * (Int.fract v - 1) + TAU = TAU * Int.fract v by ring,
        jsRem_eq_fract (by nlinarith)]
      have harg : TAU * Int.fract v / TAU = Int.fract v := by field_simp
      rw [harg, Int.fract_fract]

/-- The selected index is `⌊n · fract(u / TAU)⌋` where `u` is the raw bearing
offset and `n` the number of textures. -/
lemma selectTextureIndex_eq (billboard : Billboard ℝ) (p : Vec2 ℝ)
    (hn : 1 ≤ billboard.textures.length) :
    selectTextureIndex billboard p =
      ⌊(billboard.textures.length : ℝ) *
        Int.fract ((atan2 (p.y - billboard.position.y) (p.x - billboard.position.x) -
          (billboard.angle - TAU / (billboard.textures.length : ℝ) / 2)) / TAU)⌋ := by
  have hT := TAU_pos
  have hn0 : (0 : ℝ) < (billboard.textures.length : ℝ) := by
    have : (1 : ℝ) ≤ (billboard.textures.length : ℝ) := by exact_mod_cast hn
    linarith
  simp only [selectTextureIndex]
  rw [jsRem_reduce]
  congr 1
  rw [div_div_eq_mul_div, mul_comm, ← div_div_eq_mul_div]
  field_simp
  ring

/-- The selected index lies in `[0, n)` for every camera position, billboard
angle and `n ≥ 1`. -/
lemma selectTextureIndex_bounds (billboard : Billboard ℝ) (p : Vec2 ℝ)
    (hn : 1 ≤ billboard.textures.length) :
    0 ≤ selectTextureIndex billboard p ∧
      selectTextureIndex billboard p < (billboard.textures.length : ℤ) := by
  rw [selectTextureIndex_eq billboard p hn]
  have hn0 : (0 : ℝ) < (billboard.textures.length : ℝ) := by
    have : (1 : ℝ) ≤ (billboard.textures.length : ℝ) := by exact_mod_cast hn
    linarith
  set f := Int.fract ((atan2 (p.y - billboard.position.y) (p.x - billboard.position.x) -
    (billboard.angle - TAU / (billboard.textures.length : ℝ) / 2)) / TAU) with hf
  have hf0 : 0 ≤ f := Int.fract_nonneg _
  have hf1 : f < 1 := Int.fract_lt_one _
  constructor
  · exact Int.floor_nonneg.mpr (by nlinarith)
  · exact Int.floor_lt.mpr (by push_cast; nlinarith)

/-- C10: for every billboard with `N ≥ 1` textures, every billboard angle and
every camera position, the computed index satisfies `0 ≤ index < N`, so
`selectTextureByCamera` returns an element of the textures array and is never
`undefined`. -/
theorem selectTextureByCamera_in_bounds (billboard : Billboard ℝ) (camera : CameraData ℝ)
    (hn : 1 ≤ billboard.textures.length) :
    0 ≤ selectTextureIndex billboard camera.position ∧
    selectTextureIndex billboard camera.position < (billboard.textures.length : ℤ) ∧
    ∃ t, selectTextureByCamera billboard camera = some t ∧ t ∈ billboard.textures := by
  obtain ⟨h0, h1⟩ := selectTextureIndex_bounds billboard camera.position hn
  refine ⟨h0, h1, ?_⟩
  have hlt : (selectTextureIndex billboard camera.position).toNat <
      billboard.textures.length := by omega
  refine ⟨billboard.textures.get ⟨_, hlt⟩, ?_, List.get_mem _ _ _⟩
  simp only [selectTextureByCamera, if_pos h0]
  rw [List.getElem?_eq_getElem hlt]
  simp

/-- Witness for C10 at a concrete input (one texture). -/
theorem selectTextureByCamera_in_bounds_witness :
    (0 : ℤ) ≤ selectTextureIndex ⟨⟨0, 0⟩, ⟨1, 1⟩, 0, 0, [probeTex]⟩ ⟨1, 0⟩ ∧
    selectTextureIndex ⟨⟨0, 0⟩, ⟨1, 1⟩, 0, 0, [probeTex]⟩ ⟨1, 0⟩ <
      (([probeTex] : List Texture).length : ℤ) ∧
    ∃ t, selectTextureByCamera ⟨⟨0, 0⟩, ⟨1, 1⟩, 0, 0, [probeTex]⟩ ⟨⟨1, 0⟩, ⟨1, 0⟩, ⟨0, 0⟩⟩ =
        some t ∧ t ∈ ([probeTex] : List Texture) :=
  selectTextureByCamera_in_bounds ⟨⟨0, 0⟩, ⟨1, 1⟩, 0, 0, [probeTex]⟩
    ⟨⟨1, 0⟩, ⟨1, 0⟩, ⟨0, 0⟩⟩ (by decide)

/-- Shifting the bearing by one slot shifts `⌊n · fract v⌋` down by one,
cyclically. -/
lemma floor_mul_fract_shift (n : ℕ) (hn : 1 ≤ n) (v : ℝ) :
    ⌊(n : ℝ) * Int.fract (v - 1 / (n : ℝ))⌋ =
      (⌊(n : ℝ) * Int.fract v⌋ - 1) % (n : ℤ) := by
  have hn0 : (0 : ℝ) < (n : ℝ) := by exact_mod_cast Nat.lt_of_lt_of_le Nat.zero_lt_one hn
  have step1 : ∀ w : ℝ, ⌊(n : ℝ) * Int.fract w⌋ = ⌊(n : ℝ) * w⌋ - n * ⌊w⌋ := by
    intro w
    rw [Int.fract, mul_sub]
    rw [show (n : ℝ) * (⌊w⌋ : ℝ) = (((n * ⌊w⌋ : ℤ) : ℤ) : ℝ) by push_cast; ring]
    rw [Int.floor_sub_int]
  have h2 : ⌊(n : ℝ) * (v - 1 / (n : ℝ))⌋ = ⌊(n : ℝ) * v⌋ - 1 := by
    have e : (n : ℝ) * (v - 1 / (n : ℝ)) = (n : ℝ) * v - ((1 : ℤ) : ℝ) := by
      push_cast
      field_simp
      ring
    rw [e, Int.floor_sub_int]
  have hlhs0 : 0 ≤ ⌊(n : ℝ) * Int.fract (v - 1 / (n : ℝ))⌋ :=
    Int.floor_nonneg.mpr (by nlinarith [Int.fract_nonneg (v - 1 / (n : ℝ))])
  have hlhs1 : ⌊(n : ℝ) * Int.fract (v - 1 / (n : ℝ))⌋ < (n : ℤ) :=
    Int.floor_lt.mpr (by
      push_cast
      nlinarith [Int.fract_lt_one (v - 1 / (n : ℝ)), Int.fract_nonneg (v - 1 / (n : ℝ))])
  rw [step1 (v - 1 / (n : ℝ)), h2] at hlhs0 hlhs1
  rw [step1 v, step1 (v - 1 / (n : ℝ)), h2]
  have hdvd : (n : ℤ) ∣ ((⌊(n : ℝ) * v⌋ - n * ⌊v⌋ - 1) -
      (⌊(n : ℝ) * v⌋ - 1 - n * ⌊v - 1 / (n : ℝ)⌋)) :=
    ⟨⌊v - 1 / (n : ℝ)⌋ - ⌊v⌋, by ring⟩
  have hmod := Int.modEq_iff_dvd.mpr hdvd
  unfold Int.ModEq at hmod
  rw [← hmod]
  exact (Int.emod_eq_of_lt hlhs0 hlhs1).symm

/-- C8: with `N ≥ 1` textures and the camera away from the billboard,
increasing `billboard.angle` by exactly `2π/N` shifts the selected texture
index by exactly one position modulo `N`. -/
theorem selectTextureIndex_cycles (billboard : Billboard ℝ) (cameraPosition : Vec2 ℝ)
    (hn : 1 ≤ billboard.textures.length)
    (hne : cameraPosition ≠ billboard.position) :
    selectTextureIndex
        { billboard with angle := billboard.angle + TAU / (billboard.textures.length : ℝ) }
        cameraPosition =
      (selectTextureIndex billboard cameraPosition - 1) % (billboard.textures.length : ℤ) := by
  have hT := TAU_pos
  have hn0 : (0 : ℝ) < (billboard.textures.length : ℝ) := by
    exact_mod_cast Nat.lt_of_lt_of_le Nat.zero_lt_one hn
  have e1 := selectTextureIndex_eq
    { billboard with angle := billboard.angle + TAU / (billboard.textures.length : ℝ) }
    cameraPosition hn
  dsimp only at e1
  have e0 := selectTextureIndex_eq billboard cameraPosition hn
  rw [e1, e0]
  have harg :
      (atan2 (cameraPosition.y - billboard.position.y)
          (cameraPosition.x - billboard.position.x) -
        (billboard.angle + TAU / (billboard.textures.length : ℝ) -
          TAU / (billboard.textures.length : ℝ) / 2)) / TAU =
      (atan2 (cameraPosition.y - billboard.position.y)
          (cameraPosition.x - billboard.position.x) -
        (billboard.angle - TAU / (billboard.textures.length : ℝ) / 2)) / TAU -
        1 / (billboard.textures.length : ℝ) := by
    field_simp
    ring
  rw [harg]
  exact floor_mul_fract_shift billboard.textures.length hn _

/-- Witness for C8 at a concrete input (four textures). -/
theorem selectTextureIndex_cycles_witness :
    selectTextureIndex
        ⟨⟨0, 0⟩, ⟨1, 1⟩, 0, 0 + TAU / (([probeTex, probeTex, probeTex, probeTex] :
          List Texture).length : ℝ), [probeTex, probeTex, probeTex, probeTex]⟩ ⟨1, 0⟩ =
      (selectTextureIndex ⟨⟨0, 0⟩, ⟨1, 1⟩, 0, 0, [probeTex, probeTex, probeTex, probeTex]⟩
          ⟨1, 0⟩ - 1) %
        (([probeTex, probeTex, probeTex, probeTex] : List Texture).length : ℤ) :=
  selectTextureIndex_cycles ⟨⟨0, 0⟩, ⟨1, 1⟩, 0, 0, [probeTex, probeTex, probeTex, probeTex]⟩
    ⟨1, 0⟩ (by decide) (by simp)

/-- `Ray` of the source: a 3D ray. -/
structure Ray (K : Type) where
  startPosition : Vec3 K
  direction : Vec3 K

/-- `RayTilemapCeilingFloorIntersectionResult` of the source. -/
structure RayTilemapCeilingFloorIntersectionResult where
  position : Vec3 ℝ
  rayScale : ℝ
  normal : Vec3 ℝ
  deriving DecidableEq

/-- `rayTilemapCeilingFloorIntersection` (src/utils/index.ts): project the ray
to XY, normalise (recording the original length `L = √(x²+y²)`), run the 2D
DDA, lift the hit to `z = sz + (dz/L)·perp`, dispatch on `z` to the floor
plane, ceiling plane or lifted wall plane, and intersect analytically with
`t = −(d + n·start)/(n·dir)`.  Dot products are written out componentwise
(`Vec3.dot`).  `none` models a non-terminating DDA. -/
def rayTilemapCeilingFloorIntersection (fuel : ℕ) (ray : Ray ℝ) (tm : Tilemap) :
    Option RayTilemapCeilingFloorIntersectionResult :=
  let ray2dLength := Real.sqrt (ray.direction.x * ray.direction.x +
    ray.direction.y * ray.direction.y)
  let ray2dDirection : Vec2 ℝ :=
    ⟨ray.direction.x * (1 / ray2dLength), ray.direction.y * (1 / ray2dLength)⟩
  match rayTilemapIntersection fuel
      ⟨⟨ray.startPosition.x, ray.startPosition.y⟩, ray2dDirection⟩ tm with
  | none => none
  | some res =>
    let hitZ := ray.startPosition.z +
      ray.direction.z / ray2dLength * res.perpendicularDistance
    let nd : Vec3 ℝ × ℝ :=
      if hitZ ≤ 0 then (⟨0, 0, 1⟩, 0)
      else if 1 ≤ hitZ then (⟨0, 0, -1⟩, 1)
      else (⟨(res.normal.x : ℝ), (res.normal.y : ℝ), 0⟩,
        -((res.normal.x : ℝ) * res.hitPosition.x + (res.normal.y : ℝ) * res.hitPosition.y))
    let n := nd.1
    let d := nd.2
    let t := -(d + (n.x * ray.startPosition.x + n.y * ray.startPosition.y +
        n.z * ray.startPosition.z)) /
      (n.x * ray.direction.x + n.y * ray.direction.y + n.z * ray.direction.z)
    some ⟨⟨ray.startPosition.x + ray.direction.x * t,
           ray.startPosition.y + ray.direction.y * t,
           ray.startPosition.z + ray.direction.z * t⟩, t, n⟩

/-- C6: whenever the underlying DDA succeeds, the result of
`rayTilemapCeilingFloorIntersection` is exactly: `z = sz + (dz/L)·perp`;
normal `(0,0,1)` with `d = 0` if `z ≤ 0`, normal `(0,0,−1)` with `d = 1` if
`z ≥ 1`, else the 2D wall normal lifted to z = 0 with the plane through the
2D hit; and `rayScale t = −(d + n·start)/(n·dir)` with
`position = start + t·dir`. -/
theorem rayTilemapCeilingFloorIntersection_spec (fuel : ℕ) (ray : Ray ℝ) (tm : Tilemap)
    (out : RayTilemapCeilingFloorIntersectionResult)
    (h : rayTilemapCeilingFloorIntersection fuel ray tm = some out) :
    ∃ res, rayTilemapIntersection fuel
        ⟨⟨ray.startPosition.x, ray.startPosition.y⟩,
         ⟨ray.direction.x * (1 / Real.sqrt (ray.direction.x * ray.direction.x +
            ray.direction.y * ray.direction.y)),
          ray.direction.y * (1 / Real.sqrt (ray.direction.x * ray.direction.x +
            ray.direction.y * ray.direction.y))⟩⟩ tm = some res ∧
      (let hitZ := ray.startPosition.z +
        ray.direction.z / Real.sqrt (ray.direction.x * ray.direction.x +
          ray.direction.y * ray.direction.y) * res.perpendicularDistance
       let n : Vec3 ℝ :=
        if hitZ ≤ 0 then ⟨0, 0, 1⟩
        else if 1 ≤ hitZ then ⟨0, 0, -1⟩
        else ⟨(res.normal.x : ℝ), (res.normal.y : ℝ), 0⟩
       let d : ℝ :=
        if hitZ ≤ 0 then 0
        else if 1 ≤ hitZ then 1
        else -((res.normal.x : ℝ) * res.hitPosition.x + (res.normal.y : ℝ) * res.hitPosition.y)
       let t := -(d + (n.x * ray.startPosition.x + n.y * ray.startPosition.y +
          n.z * ray.startPosition.z)) /
        (n.x * ray.direction.x + n.y * ray.direction.y + n.z * ray.direction.z)
       out.normal = n ∧ out.rayScale = t ∧
        out.position = ⟨ray.startPosition.x + ray.direction.x * t,
                        ray.startPosition.y + ray.direction.y * t,
                        ray.startPosition.z + ray.direction.z * t⟩) := by
  simp only [rayTilemapCeilingFloorIntersection] at h
  split at h
  · exact absurd h (by simp)
  · next res hres =>
    refine ⟨res, hres, ?_⟩
    cases h
    dsimp only
    split_ifs <;> simp_all

/-- A concrete 3D probe ray inside `ring3`, rising toward the ceiling. -/
def cfRay : Ray ℝ := ⟨⟨3 / 2, 3 / 2, 1 / 2⟩, ⟨1, 0, 1⟩⟩

/-- The expected ceiling hit for `cfRay` against `ring3`. -/
def cfOut : RayTilemapCeilingFloorIntersectionResult := ⟨⟨2, 3 / 2, 1⟩, 1 / 2, ⟨0, 0, -1⟩⟩

/-- Witness for C6 at a concrete input. -/
theorem rayTilemapCeilingFloorIntersection_spec_witness :
    rayTilemapCeilingFloorIntersection 10 cfRay ring3 = some cfOut ∧
    ∃ res, rayTilemapIntersection 10
        ⟨⟨cfRay.startPosition.x, cfRay.startPosition.y⟩,
         ⟨cfRay.direction.x * (1 / Real.sqrt (cfRay.direction.x * cfRay.direction.x +
            cfRay.direction.y * cfRay.direction.y)),
          cfRay.direction.y * (1 / Real.sqrt (cfRay.direction.x * cfRay.direction.x +
            cfRay.direction.y * cfRay.direction.y))⟩⟩ ring3 = some res ∧
      (let hitZ := cfRay.startPosition.z +
        cfRay.direction.z / Real.sqrt (cfRay.direction.x * cfRay.direction.x +
          cfRay.direction.y * cfRay.direction.y) * res.perpendicularDistance
       let n : Vec3 ℝ :=
        if hitZ ≤ 0 then ⟨0, 0, 1⟩
        else if 1 ≤ hitZ then ⟨0, 0, -1⟩
        else ⟨(res.normal.x : ℝ), (res.normal.y : ℝ), 0⟩
       let d : ℝ :=
        if hitZ ≤ 0 then 0
        else if 1 ≤ hitZ then 1
        else -((res.normal.x : ℝ) * res.hitPosition.x + (res.normal.y : ℝ) * res.hitPosition.y)
       let t := -(d + (n.x * cfRay.startPosition.x + n.y * cfRay.startPosition.y +
          n.z * cfRay.startPosition.z)) /
        (n.x * cfRay.direction.x + n.y * cfRay.direction.y + n.z * cfRay.direction.z)
       cfOut.normal = n ∧ cfOut.rayScale = t ∧
        cfOut.position = ⟨cfRay.startPosition.x + cfRay.direction.x * t,
                          cfRay.startPosition.y + cfRay.direction.y * t,
                          cfRay.startPosition.z + cfRay.direction.z * t⟩) := by
  have h : rayTilemapCeilingFloorIntersection 10 cfRay ring3 = some cfOut := by
    simp only [rayTilemapCeilingFloorIntersection, cfRay, cfOut, ring3,
      rayTilemapIntersection, ddaLoop, jsAbsRecip, jsAbs, Flt.lt, Flt.add, Flt.smul,
      Tilemap.cellAt]
    norm_num [Real.sqrt_one]
    simp [Int.toNat_ofNat]
    norm_num
  exact ⟨h, rayTilemapCeilingFloorIntersection_spec 10 cfRay ring3 cfOut h⟩

/-- The squared camera-to-billboard distance the billboard sort keys on
(`dx*dx + dy*dy` in `renderBillboard`). -/
def billboardDistance (camera : CameraData ℝ) (billboard : Billboard ℝ) : ℝ :=
  let dx := billboard.position.x - camera.position.x
  let dy := billboard.position.y - camera.position.y
  dx * dx + dy * dy

/-- The billboard sort
`billboards.map(...).sort((a, b) => b.distance - a.distance).map(...)`:
descending by squared distance.  `Array.prototype.sort` is required by
ES2019 to be stable, so it is modelled as a stable insertion sort with the
comparator's order: an element goes in front of the first element whose
distance is `≤` its own, which preserves input order among equal keys exactly
as a stable sort does. -/
def sortBillboards (camera : CameraData ℝ) (billboards : List (Billboard ℝ)) :
    List (Billboard ℝ) :=
  List.insertionSort
    (fun a b => billboardDistance camera b ≤ billboardDistance camera a) billboards

/-- A JS read `this.zBuffer[x]`: out-of-range gives `undefined` (`none`). -/
def zbAt (zBuffer : List (Option (Flt ℝ))) (x : ℤ) : Option (Flt ℝ) :=
  if 0 ≤ x then (zBuffer[x.toNat]?).join else none

/-- The comparison `BYc < this.zBuffer[x]` under JS semantics: comparison with
`undefined` is false; a finite value is `<` `Infinity`. -/
def zLess (a : ℝ) (e : Option (Flt ℝ)) : Bool :=
  match e with
  | none => false
  | some (Flt.fin b) => decide (a < b)
  | some Flt.inf => true

/-- Unshaded pixel loop of `draw_billboard_vline`: binary alpha test against
the source alpha byte, destination alpha forced to `0xFF`. -/
def billboardVlineRaw (w H : ℕ) (texture : Texture) (x texX drawOffsetY : ℤ)
    (billboardHeight : ℝ) (endY : ℤ) :
    ℕ → ℤ → List ℕ → List ℕ
  | 0, _, rgba => rgba
  | fuel + 1, y, rgba =>
    if y < endY then
      let v := ((y : ℝ) - (drawOffsetY : ℝ) - ((H : ℝ) - billboardHeight) / 2) / billboardHeight
      let texY := jsTrunc (v * (texture.height : ℝ))
      let i := ((w : ℤ) * y + x) * 4
      let j := ((texture.width : ℤ) * texY + texX) * 4
      let rgba :=
        if 0 < byteAt texture.data (j + 3) then
          let rgba := setByte rgba (i + 0) (byteAt texture.data (j + 0))
          let rgba := setByte rgba (i + 1) (byteAt texture.data (j + 1))
          let rgba := setByte rgba (i + 2) (byteAt texture.data (j + 2))
          setByte rgba (i + 3) 255
        else rgba
      billboardVlineRaw w H texture x texX drawOffsetY billboardHeight endY fuel (y + 1) rgba
    else rgba

/-- Shaded pixel loop of `draw_billboard_vline`: per channel
`fogC + tex * fC` (clamped), destination alpha forced to `0xFF`. -/
def billboardVlineShaded (w H : ℕ) (texture : Texture) (x texX drawOffsetY : ℤ)
    (billboardHeight : ℝ) (endY : ℤ) (fR fG fB fogR fogG fogB : ℝ) :
    ℕ → ℤ → List ℕ → List ℕ
  | 0, _, rgba => rgba
  | fuel + 1, y, rgba =>
    if y < endY then
      let v := ((y : ℝ) - (drawOffsetY : ℝ) - ((H : ℝ) - billboardHeight) / 2) / billboardHeight
      let texY := jsTrunc (v * (texture.height : ℝ))
      let i := ((w : ℤ) * y + x) * 4
      let j := ((texture.width : ℤ) * texY + texX) * 4
      let rgba :=
        if 0 < byteAt texture.data (j + 3) then
          let rgba := setByte rgba (i + 0) (jsClamp8 (fogR + (byteAt texture.data (j + 0) : ℝ) * fR))
          let rgba := setByte rgba (i + 1) (jsClamp8 (fogG + (byteAt texture.data (j + 1) : ℝ) * fG))
          let rgba := setByte rgba (i + 2) (jsClamp8 (fogB + (byteAt texture.data (j + 2) : ℝ) * fB))
          setByte rgba (i + 3) 255
        else rgba
      billboardVlineShaded w H texture x texX drawOffsetY billboardHeight endY
        fR fG fB fogR fogG fogB fuel (y + 1) rgba
    else rgba

/-- `Raycaster.draw_billboard_vline` (private method).  Unlike
`draw_wall_vline`, the no-fog path here uses fog contribution 0 and factor
`r` unchanged. -/
def Raycaster.draw_billboard_vline (st : Raycaster ℝ) (texture : Texture)
    (x drawStartY drawEndY : ℤ) (billboardWidth billboardHeight : ℝ)
    (billboardScreenX drawOffsetY : ℤ) (lightColor : Option (RGB ℝ))
    (fog : Option (Fog ℝ)) (distance : ℝ) : Raycaster ℝ :=
  let u := ((x : ℝ) - ((billboardScreenX : ℝ) - billboardWidth / 2)) / billboardWidth
  let texX := jsTrunc (u * (texture.width : ℝ))
  match lightColor, fog with
  | none, none =>
    let rgba := billboardVlineRaw st.width st.height texture x texX drawOffsetY
      billboardHeight drawEndY (drawEndY - drawStartY).toNat drawStartY st.rgba
    { st with rgba := rgba }
  | some lc, some fg =>
    let f : ℝ := min 1 (max 0 ((fg.far - distance) / (fg.far - fg.near)))
    let rgba := billboardVlineShaded st.width st.height texture x texX drawOffsetY
      billboardHeight drawEndY (f * lc.r) (f * lc.g) (f * lc.b)
      (fg.color.r * (1 - f) * 255) (fg.color.g * (1 - f) * 255) (fg.color.b * (1 - f) * 255)
      (drawEndY - drawStartY).toNat drawStartY st.rgba
    { st with rgba := rgba }
  | none, some fg =>
    let f : ℝ := min 1 (max 0 ((fg.far - distance) / (fg.far - fg.near)))
    let rgba := billboardVlineShaded st.width st.height texture x texX drawOffsetY
      billboardHeight drawEndY (f * 1) (f * 1) (f * 1)
      (fg.color.r * (1 - f) * 255) (fg.color.g * (1 - f) * 255) (fg.color.b * (1 - f) * 255)
      (drawEndY - drawStartY).toNat drawStartY st.rgba
    { st with rgba := rgba }
  | some lc, none =>
    let rgba := billboardVlineShaded st.width st.height texture x texX drawOffsetY
      billboardHeight drawEndY lc.r lc.g lc.b 0 0 0
      (drawEndY - drawStartY).toNat drawStartY st.rgba
    { st with rgba := rgba }

/-- The per-billboard column loop: draw column `x` only when
`BYc < zBuffer[x]`. -/
def billboardXLoop (texture : Texture) (drawStartY drawEndY : ℤ)
    (billboardWidth billboardHeight : ℝ) (billboardScreenX drawOffsetY : ℤ)
    (lightColor : Option (RGB ℝ)) (fog : Option (Fog ℝ)) (BYc : ℝ) (endX : ℤ) :
    ℕ → ℤ → Raycaster ℝ → Raycaster ℝ
  | 0, _, st => st
  | fuel + 1, x, st =>
    if x < endX then
      let st :=
        if zLess BYc (zbAt st.zBuffer x) then
          st.draw_billboard_vline texture x drawStartY drawEndY billboardWidth billboardHeight
            billboardScreenX drawOffsetY lightColor fog BYc
        else st
      billboardXLoop texture drawStartY drawEndY billboardWidth billboardHeight
        billboardScreenX drawOffsetY lightColor fog BYc endX fuel (x + 1) st
    else st

/-- The `lightColor` computed per billboard in `renderBillboard` (the normal
is the unit camera-to-billboard vector in XY). -/
def billboardLightColor (light : Option (Light ℝ)) (camera : CameraData ℝ)
    (billboard : Billboard ℝ) : Option (RGB ℝ) :=
  match light with
  | none => none
  | some l =>
    let dx := camera.position.x - billboard.position.x
    let dy := camera.position.y - billboard.position.y
    let len := Real.sqrt (dx * dx + dy * dy)
    let nx := dx / len
    let ny := dy / len
    let intensity := max 0 (l.direction.x * nx + l.direction.y * ny)
    some ⟨l.color.r * intensity + l.ambientColor.r,
          l.color.g * intensity + l.ambientColor.g,
          l.color.b * intensity + l.ambientColor.b⟩

/-- The loop over the (sorted) billboards.  A billboard behind the camera
(`BYc ≤ 0`) is skipped; an out-of-range texture index (`selectTextureByCamera`
returning `undefined`) aborts, modelled as `none`. -/
def renderBillboardList (light : Option (Light ℝ)) (fog : Option (Fog ℝ))
    (camera : CameraData ℝ) (invDet : ℝ) :
    List (Billboard ℝ) → Raycaster ℝ → Option (Raycaster ℝ)
  | [], st => some st
  | billboard :: rest, st =>
    let Xcb := billboard.position.x - camera.position.x
    let Ycb := billboard.position.y - camera.position.y
    let BXc := invDet * (camera.direction.y * Xcb - camera.direction.x * Ycb)
    let BYc := invDet * (-camera.plane.y * Xcb + camera.plane.x * Ycb)
    if BYc ≤ 0 then renderBillboardList light fog camera invDet rest st
    else
      match selectTextureByCamera billboard camera with
      | none => none
      | some texture =>
        let drawOffsetY : ℤ := ⌊-billboard.vOffset / BYc * (st.height : ℝ)⌋
        let BXs : ℤ := ⌊(st.width : ℝ) / 2 * (1 + BXc / BYc)⌋
        let billboardHeight : ℝ := ((|⌊(st.height : ℝ) / BYc⌋| : ℤ) : ℝ) * billboard.scale.y
        let drawStartY : ℤ := max ⌊((st.height : ℝ) - billboardHeight) / 2 + (drawOffsetY : ℝ)⌋ 0
        let drawEndY : ℤ := min ⌊((st.height : ℝ) + billboardHeight) / 2 + (drawOffsetY : ℝ)⌋
          (st.height : ℤ)
        let billboardWidth : ℝ := ((|⌊(st.height : ℝ) / BYc⌋| : ℤ) : ℝ) * billboard.scale.x
        let drawStartX : ℤ := max ⌊(BXs : ℝ) - billboardWidth / 2⌋ 0
        let drawEndX : ℤ := min ⌊(BXs : ℝ) + billboardWidth / 2⌋ (st.width : ℤ)
        let lightColor := billboardLightColor light camera billboard
        let st' := billboardXLoop texture drawStartY drawEndY billboardWidth billboardHeight
          BXs drawOffsetY lightColor fog BYc drawEndX (drawEndX - drawStartX).toNat
          drawStartX st
        renderBillboardList light fog camera invDet rest st'

/-- `Raycaster.renderBillboard`: sort by squared distance descending, then
draw each billboard in order. -/
def Raycaster.renderBillboard (st : Raycaster ℝ) (billboards : List (Billboard ℝ))
    (light : Option (Light ℝ)) (fog : Option (Fog ℝ)) (camera : CameraData ℝ) :
    Option (Raycaster ℝ) :=
  let sorted := sortBillboards camera billboards
  let invDet := 1 / (camera.plane.x * camera.direction.y -
    camera.direction.x * camera.plane.y)
  renderBillboardList light fog camera invDet sorted st

/-- `RaycasterRenderParam` of the source (all stages optional except the
camera). -/
structure RaycasterRenderParam where
  tilemap : Option Tilemap
  textures : Option (List Texture)
  billboards : Option (List (Billboard ℝ))
  floorTexture : Option Texture
  ceilingTexture : Option Texture
  light : Option (Light ℝ)
  fog : Option (Fog ℝ)
  camera : CameraData ℝ

/-- The wall-stage dispatch of `render`: runs only when both `tilemap` and
`textures` are present. -/
def renderWallStage (st : Raycaster ℝ) (ddaFuel : ℕ) (tilemap : Option Tilemap)
    (textures : Option (List Texture)) (light : Option (Light ℝ)) (fog : Option (Fog ℝ))
    (camera : CameraData ℝ) : Option (Raycaster ℝ) :=
  match tilemap, textures with
  | some tm, some texs => st.renderWall ddaFuel tm texs light fog camera
  | _, _ => some st

/-- The billboard-stage dispatch of `render`. -/
def renderBillboardStage (st : Raycaster ℝ) (billboards : Option (List (Billboard ℝ)))
    (light : Option (Light ℝ)) (fog : Option (Fog ℝ)) (camera : CameraData ℝ) :
    Option (Raycaster ℝ) :=
  match billboards with
  | some bbs => st.renderBillboard bbs light fog camera
  | none => some st

/-- `Raycaster.render`: clear both buffers, then floor/ceiling, then walls,
then billboards.  `none` models a non-terminating wall DDA or a billboard
texture-selection crash. -/
def Raycaster.render (st : Raycaster ℝ) (ddaFuel : ℕ) (param : RaycasterRenderParam) :
    Option (Raycaster ℝ) :=
  let st1 := Raycaster.clear [] st
  let st2 :=
    if param.floorTexture.isSome || param.ceilingTexture.isSome then
      st1.renderFloorAndCeiling param.floorTexture param.ceilingTexture
        param.light param.fog param.camera
    else st1
  match renderWallStage st2 ddaFuel param.tilemap param.textures param.light param.fog
      param.camera with
  | none => none
  | some st3 => renderBillboardStage st3 param.billboards param.light param.fog param.camera

/-- Insertion sort on the billboard distance key returns the same list for any
two permutations of the input whose squared distances are pairwise distinct:
both results are sorted strictly, and a strictly sorted permutation of a given
multiset is unique. -/
lemma sortBillboards_eq_of_perm (camera : CameraData ℝ) (l1 l2 : List (Billboard ℝ))
    (hperm : l1.Perm l2)
    (hdist : l1.Pairwise (fun a b => billboardDistance camera a ≠ billboardDistance camera b)) :
    sortBillboards camera l1 = sortBillboards camera l2 := by
  classical
  set r : Billboard ℝ → Billboard ℝ → Prop :=
    fun a b => billboardDistance camera b ≤ billboardDistance camera a with hr
  haveI : IsTotal (Billboard ℝ) r :=
    ⟨fun a b => (le_total (billboardDistance camera b) (billboardDistance camera a)).imp id id⟩
  haveI : IsTrans (Billboard ℝ) r := ⟨fun a b c hab hbc => le_trans hbc hab⟩
  have hs1 : List.Sorted r (sortBillboards camera l1) := List.sorted_insertionSort _ _
  have hs2 : List.Sorted r (sortBillboards camera l2) := List.sorted_insertionSort _ _
  have hp1 : (sortBillboards camera l1).Perm l1 := List.perm_insertionSort _ _
  have hp2 : (sortBillboards camera l2).Perm l2 := List.perm_insertionSort _ _
  have hd1 : (sortBillboards camera l1).Pairwise
      (fun a b => billboardDistance camera a ≠ billboardDistance camera b) :=
    (hp1.pairwise_iff (fun h => Ne.symm h)).mpr hdist
  have hd2 : (sortBillboards camera l2).Pairwise
      (fun a b => billboardDistance camera a ≠ billboardDistance camera b) :=
    (hp2.pairwise_iff (fun h => Ne.symm h)).mpr
      ((hperm.pairwise_iff (fun h => Ne.symm h)).mp hdist)
  set s : Billboard ℝ → Billboard ℝ → Prop :=
    fun a b => billboardDistance camera b < billboardDistance camera a with hsdef
  haveI : IsAntisymm (Billboard ℝ) s :=
    ⟨fun a b h1 h2 => absurd (lt_trans h1 h2) (lt_irrefl _)⟩
  have hss1 : List.Sorted s (sortBillboards camera l1) :=
    (hs1.and hd1).imp (fun h => lt_of_le_of_ne h.1 h.2.symm)
  have hss2 : List.Sorted s (sortBillboards camera l2) :=
    (hs2.and hd2).imp (fun h => lt_of_le_of_ne h.1 h.2.symm)
  exact List.eq_of_perm_of_sorted (hp1.trans (hperm.trans hp2.symm)) hss1 hss2

/-- A billboard with a single texture always selects it (from the index
bounds of `selectTextureIndex`). -/
lemma selectTextureByCamera_single (billboard : Billboard ℝ) (camera : CameraData ℝ)
    (t : Texture) (h : billboard.textures = [t]) :
    selectTextureByCamera billboard camera = some t := by
  obtain ⟨h0, h1⟩ := selectTextureIndex_bounds billboard camera.position (by rw [h]; simp)
  have hidx : selectTextureIndex billboard camera.position = 0 := by
    rw [h] at h1; simp at h1; omega
  simp [selectTextureByCamera, hidx, h]

/-- An opaque 1x1 red texture. -/
def redTex : Texture := ⟨1, 1, [255, 0, 0, 255]⟩

/-- An opaque 1x1 blue texture. -/
def blueTex : Texture := ⟨1, 1, [0, 0, 255, 255]⟩

/-- A camera at the origin looking along (0, -1) with plane (1/2, 0). -/
def bbCam : CameraData ℝ := ⟨⟨0, 0⟩, ⟨0, -1⟩, ⟨1/2, 0⟩⟩

/-- A red billboard half a unit in front of `bbCam`. -/
def redBB : Billboard ℝ := ⟨⟨0, -1/2⟩, ⟨1, 1⟩, 0, 0, [redTex]⟩

/-- A blue billboard at the same position as `redBB` (equal distance). -/
def blueBB : Billboard ℝ := ⟨⟨0, -1/2⟩, ⟨1, 1⟩, 0, 0, [blueTex]⟩

/-- A blue billboard strictly farther from `bbCam` than `redBB`. -/
def farBB : Billboard ℝ := ⟨⟨0, -3/4⟩, ⟨1, 1⟩, 0, 0, [blueTex]⟩

/-- A render parameter drawing only billboards with `bbCam`. -/
def bbParam (billboards : List (Billboard ℝ)) : RaycasterRenderParam :=
  ⟨none, none, some billboards, none, none, none, none, bbCam⟩

/-- C9 (counterexample): with two billboards at the very same position (equal
squared distance to the camera) the rendered frame depends on the input order:
the stable sort keeps the input order of the tie, and the billboard drawn
later overdraws the one drawn first, because the z-test compares against the
wall z-buffer only.  On a 1x1 frame the pixel is blue for `[red, blue]` and
red for `[blue, red]`. -/
theorem renderBillboard_tie_breaks_permutation_invariance :
    Raycaster.render (Raycaster.make ℝ ⟨1, 1, [0, 0, 0, 0]⟩) 1 (bbParam [redBB, blueBB]) ≠
    Raycaster.render (Raycaster.make ℝ ⟨1, 1, [0, 0, 0, 0]⟩) 1 (bbParam [blueBB, redBB]) := by
  have hred := selectTextureByCamera_single redBB bbCam redTex rfl
  have hblue := selectTextureByCamera_single blueBB bbCam blueTex rfl
  simp only [redBB, blueBB, bbCam, redTex, blueTex] at hred hblue
  norm_num at hred hblue
  have hmax : (1 : ℝ) / 2 < maxValue := by unfold maxValue; norm_num
  have hL : Raycaster.render (Raycaster.make ℝ ⟨1, 1, [0, 0, 0, 0]⟩) 1
      (bbParam [redBB, blueBB]) =
      some { width := 1, height := 1, rgba := [0, 0, 255, 255],
             zBuffer := [some (Flt.fin maxValue)] } := by
    simp only [Raycaster.render, Raycaster.make, Raycaster.clear, clearDepthLoop,
      List.foldl, List.replicate, renderWallStage, renderBillboardStage,
      Raycaster.renderBillboard, sortBillboards, List.insertionSort, List.orderedInsert,
      billboardDistance, bbParam, bbCam, redBB, blueBB, redTex, blueTex]
    norm_num
    rw [renderBillboardList.eq_def]
    norm_num [hred]
    simp only [billboardXLoop, billboardLightColor, zbAt, zLess,
      Raycaster.draw_billboard_vline, billboardVlineRaw, jsTrunc, byteAt, setByte]
    norm_num [hmax]
    simp [Int.toNat_ofNat]
    rw [renderBillboardList.eq_def]
    norm_num [hblue]
    simp only [billboardXLoop, billboardLightColor, zbAt, zLess,
      Raycaster.draw_billboard_vline, billboardVlineRaw, jsTrunc, byteAt, setByte]
    norm_num [hmax]
    simp [Int.toNat_ofNat]
    rw [renderBillboardList.eq_def]
  have hR : Raycaster.render (Raycaster.make ℝ ⟨1, 1, [0, 0, 0, 0]⟩) 1
      (bbParam [blueBB, redBB]) =
      some { width := 1, height := 1, rgba := [255, 0, 0, 255],
             zBuffer := [some (Flt.fin maxValue)] } := by
    simp only [Raycaster.render, Raycaster.make, Raycaster.clear, clearDepthLoop,
      List.foldl, List.replicate, renderWallStage, renderBillboardStage,
      Raycaster.renderBillboard, sortBillboards, List.insertionSort, List.orderedInsert,
      billboardDistance, bbParam, bbCam, redBB, blueBB, redTex, blueTex]
    norm_num
    rw [renderBillboardList.eq_def]
    norm_num [hblue]
    simp only [billboardXLoop, billboardLightColor, zbAt, zLess,
      Raycaster.draw_billboard_vline, billboardVlineRaw, jsTrunc, byteAt, setByte]
    norm_num [hmax]
    simp [Int.toNat_ofNat]
    rw [renderBillboardList.eq_def]
    norm_num [hred]
    simp only [billboardXLoop, billboardLightColor, zbAt, zLess,
      Raycaster.draw_billboard_vline, billboardVlineRaw, jsTrunc, byteAt, setByte]
    norm_num [hmax]
    simp [Int.toNat_ofNat]
    rw [renderBillboardList.eq_def]
  rw [hL, hR]
  simp

/-- C9 (amended): rendering is invariant under permutations of the billboard
list provided the squared camera distances of the billboards are pairwise
distinct: the distance sort then has a unique result, and every later stage
reads the billboards only through the sorted list. -/
theorem render_billboard_order_invariant (st : Raycaster ℝ) (ddaFuel : ℕ)
    (param : RaycasterRenderParam) (bbs1 bbs2 : List (Billboard ℝ))
    (hperm : bbs1.Perm bbs2)
    (hdist : bbs1.Pairwise
      (fun a b => billboardDistance param.camera a ≠ billboardDistance param.camera b)) :
    Raycaster.render st ddaFuel { param with billboards := some bbs1 } =
    Raycaster.render st ddaFuel { param with billboards := some bbs2 } := by
  have hsort := sortBillboards_eq_of_perm param.camera bbs1 bbs2 hperm hdist
  simp only [Raycaster.render, renderBillboardStage, Raycaster.renderBillboard, hsort]

/-- Witness for C9 (amended) at two billboards with distinct distances. -/
theorem render_billboard_order_invariant_witness :
    [redBB, farBB].Perm [farBB, redBB] ∧
    [redBB, farBB].Pairwise
      (fun a b => billboardDistance bbCam a ≠ billboardDistance bbCam b) ∧
    Raycaster.render (Raycaster.make ℝ ⟨1, 1, [0, 0, 0, 0]⟩) 1 (bbParam [redBB, farBB]) =
    Raycaster.render (Raycaster.make ℝ ⟨1, 1, [0, 0, 0, 0]⟩) 1 (bbParam [farBB, redBB]) := by
  have hperm : [redBB, farBB].Perm [farBB, redBB] := List.Perm.swap farBB redBB []
  have hdist : [redBB, farBB].Pairwise
      (fun a b => billboardDistance bbCam a ≠ billboardDistance bbCam b) := by
    simp only [List.pairwise_cons, List.mem_singleton,
      billboardDistance, redBB, farBB, bbCam]
    norm_num
  exact ⟨hperm, hdist,
    render_billboard_order_invariant (Raycaster.make ℝ ⟨1, 1, [0, 0, 0, 0]⟩) 1
      (bbParam []) [redBB, farBB] [farBB, redBB] hperm hdist⟩

end

end Raycast
